import Mathlib

/-!
Shallow embedding of the analysis/insight pipeline of the ERPNextFinancials
repository (schema detection, data cleaning, domain-analyzer helpers, the
insight / recommendation / risk engines and the multi-file orchestrator),
together with theorems settling the frozen claims about it.

Modelling conventions:
* pandas DataFrames are modelled column-major (`Df`), cells by the closed
  `Cell` type; float arithmetic is modelled by exact rationals;
* Python strings are Lean `String`s; `str.lower` is modelled by the
  ASCII `Char.toLower` (the repository's column names and keywords are
  ASCII); `str.strip` by dropping whitespace at both ends;
* Python dictionaries are association lists in insertion order;
* raised exceptions are modelled by `Option` results;
* timestamps and some human-readable f-string payloads carried along by
  log entries are elided - they never influence control flow.
-/

namespace ERP

/-! ### Python string primitives -/

/-- `listIsPre needle hay`: `needle` is a prefix of `hay`. -/
def listIsPre : List Char → List Char → Bool
  | [], _ => true
  | _ :: _, [] => false
  | a :: as, b :: bs => a == b && listIsPre as bs

/-- Python's `needle in hay` substring test. -/
def listHasSub (needle : List Char) : List Char → Bool
  | [] => needle.isEmpty
  | c :: rest => listIsPre needle (c :: rest) || listHasSub needle rest

/-- Python `needle in hay` on strings. -/
def strContains (hay needle : String) : Bool :=
  listHasSub needle.data hay.data

/-- Python `str.lower` (ASCII). -/
def pyLower (s : String) : String :=
  String.mk (s.data.map Char.toLower)

/-- Python `str.upper` (ASCII). -/
def pyUpper (s : String) : String :=
  String.mk (s.data.map Char.toUpper)

/-- Python `s[:n]` (slice of the first `n` characters). -/
def pyTake (s : String) (n : ℕ) : String :=
  String.mk (s.data.take n)

/-- Python `str.strip()` : drop whitespace from both ends. -/
def pyStripList (l : List Char) : List Char :=
  (((l.dropWhile Char.isWhitespace).reverse.dropWhile Char.isWhitespace)).reverse

/-- Python `str.strip()` on strings. -/
def pyStrip (s : String) : String :=
  String.mk (pyStripList s.data)

/-- Python `str.replace` (single-character replacement, as used on column names). -/
def pyReplaceChar (s : String) (a b : Char) : String :=
  String.mk (s.data.map (fun c => if c == a then b else c))

/-- Python `s.startswith(pre)`. -/
def pyStartsWith (s pre : String) : Bool :=
  listIsPre pre.data s.data

/-- Python `s.endswith(suf)`. -/
def pyEndsWith (s suf : String) : Bool :=
  listIsPre suf.data.reverse s.data.reverse

/-- Helper of `splitOnChar` (accumulates the current chunk reversed). -/
def splitOnCharAux (c : Char) : List Char → List Char → List (List Char)
  | [], acc => [acc.reverse]
  | x :: xs, acc =>
    if x == c then acc.reverse :: splitOnCharAux c xs []
    else splitOnCharAux c xs (x :: acc)

/-- Python `s.split(c)` for a one-character separator. -/
def splitOnChar (c : Char) (s : String) : List (List Char) :=
  splitOnCharAux c s.data []

/-- Lexicographic `≤` on character lists (Python string comparison). -/
def listLe : List Char → List Char → Bool
  | [], _ => true
  | _ :: _, [] => false
  | a :: as, b :: bs => if a == b then listLe as bs else decide (a < b)

/-- Python `s <= t` on strings. -/
def strLe (s t : String) : Bool :=
  listLe s.data t.data

/-! ### Closed enums (`models/base.py`) -/

/-- `Severity` string enum. -/
inductive Severity
  | critical
  | high
  | medium
  | low
deriving DecidableEq, Repr

/-- `Severity.value` (the backing string). -/
def Severity.value : Severity → String
  | .critical => "critical"
  | .high => "high"
  | .medium => "medium"
  | .low => "low"

/-- `DataType` string enum, in declaration order. -/
inductive DataType
  | financial
  | manufacturing
  | inventory
  | sales
  | purchase
  | unknown
deriving DecidableEq, Repr

/-- `DataType.value`. -/
def DataType.value : DataType → String
  | .financial => "financial"
  | .manufacturing => "manufacturing"
  | .inventory => "inventory"
  | .sales => "sales"
  | .purchase => "purchase"
  | .unknown => "unknown"

/-- `Priority` string enum. -/
inductive Priority
  | immediate
  | short_term
  | medium_term
deriving DecidableEq, Repr

/-- `TimeHorizon` string enum. -/
inductive TimeHorizon
  | immediate
  | short_term
  | medium_term
deriving DecidableEq, Repr

/-- `TimeHorizon.value` (the backing string: the concrete time window). -/
def TimeHorizon.value : TimeHorizon → String
  | .immediate => "0-30 days"
  | .short_term => "1-3 months"
  | .medium_term => "3-6 months"

/-- `InsightCategory` string enum. -/
inductive InsightCategory
  | financial
  | manufacturing
  | inventory
  | sales
  | purchase
  | risk
deriving DecidableEq, Repr

/-- `InsightCategory.value`. -/
def InsightCategory.value : InsightCategory → String
  | .financial => "Financial Insights"
  | .manufacturing => "Manufacturing & Operations Insights"
  | .inventory => "Inventory & Stock Insights"
  | .sales => "Sales Insights"
  | .purchase => "Purchase & Supply Chain Insights"
  | .risk => "Critical Risks"

/-! ### Output models (`models/analysis_output.py`) -/

/-- `Insight` pydantic model.  The optional `metrics` dict is modelled as an
association list of numeric entries (the engines only read numeric keys);
`product_sku` / `customer_id` are elided (never read by the engines). -/
structure Insight where
  category : InsightCategory
  severity : Severity
  finding : String
  impact : String
  action : String
  metrics : List (String × ℚ) := []
deriving DecidableEq, Repr

/-- `Recommendation` pydantic model (optional presentation-only fields elided). -/
structure Recommendation where
  title : String
  what : String
  why : String
  how : String
  impact : String
  priority : Priority
  timeline : TimeHorizon
  estimated_savings : Option ℚ := none
deriving DecidableEq, Repr

/-- `Risk` pydantic model (`early_warning_signals` elided). -/
structure Risk where
  title : String
  category : InsightCategory
  description : String
  probability : String
  financial_impact : String
  time_to_impact : String
  severity : Severity
  mitigation : String
deriving DecidableEq, Repr

/-- Python dict lookup on an association list (first binding wins). -/
def alookup (l : List (String × α)) (k : String) : Option α :=
  match l with
  | [] => none
  | (k₀, v) :: t => if k₀ = k then some v else alookup t k

/-- Keys of an association list. -/
def akeys (l : List (String × α)) : List String :=
  l.map Prod.fst

/-- Per-domain analysis bundle (`AnalysisResult` with the fields the engines
and the orchestrator actually read; `charts_data` is an opaque presentation
payload carried through unchanged). -/
structure AnalysisResultM where
  kpis : List (String × ℚ)
  insights : List Insight
  charts_data : List (String × ℚ) := []
deriving DecidableEq, Repr

/-- Number formatting used inside human-readable message strings
(`f"{x:,.0f}"` and friends); approximated by `toString` - these strings are
carried as payloads and never branched on. -/
def fmtNum (q : ℚ) : String :=
  toString q

/-- The seen-set deduplication loop shared by `_deduplicate_insights` and
`_deduplicate_risks`: keep an element iff its key is a non-empty string
(`if key`) not seen before (`key not in seen`). -/
def seenDedup (key : α → String) (seen : List String) : List α → List α
  | [] => []
  | a :: t =>
    let k := key a
    if k ≠ "" ∧ k ∉ seen then a :: seenDedup key (k :: seen) t else seenDedup key seen t

/-! ### InsightEngine (`engines/insight_engine.py`) -/

namespace InsightEngine

/-- `severity_order` rank used by the sort (`{'critical':0,'high':1,'medium':2,'low':3}`). -/
def sevRank (s : ERP.Severity) : ℕ :=
  match s with
  | .critical => 0
  | .high => 1
  | .medium => 2
  | .low => 3

/-- Deduplication key: `insight.finding[:100].lower().strip()`. -/
def dedupKey (i : Insight) : String :=
  pyStrip (pyLower (pyTake i.finding 100))

/-- `_deduplicate_insights`. -/
def _deduplicate_insights (insights : List Insight) : List Insight :=
  seenDedup dedupKey [] insights

/-- The sort key comparison: `(severity_order[sev], category.value)` lexicographically. -/
def sortKeyLe (a b : Insight) : Bool :=
  decide (sevRank a.severity < sevRank b.severity) ||
    (sevRank a.severity == sevRank b.severity && strLe a.category.value b.category.value)

/-- Stable insertion used to model Python's stable `list.sort`. -/
def insertStable (le : α → α → Bool) (a : α) : List α → List α
  | [] => [a]
  | b :: t => if le a b then a :: b :: t else b :: insertStable le a t

/-- Stable sort (models Python's Timsort, which is stable). -/
def isortStable (le : α → α → Bool) : List α → List α
  | [] => []
  | a :: t => insertStable le a (isortStable le t)

/-- `InsightEngine.generate_insights`: flatten in domain order, deduplicate,
stable-sort by `(severity rank, category string)`. -/
def generate_insights (analysis_results : List (String × AnalysisResultM)) : List Insight :=
  let flat := (analysis_results.map (fun p => p.2.insights)).flatten
  isortStable sortKeyLe (_deduplicate_insights flat)

/-- The fixed iteration order of the `InsightCategory` enum. -/
def allCategories : List InsightCategory :=
  [.financial, .manufacturing, .inventory, .sales, .purchase, .risk]

/-- `InsightEngine.categorize_insights`: group by category (in enum order,
insights kept in input order) and drop empty categories. -/
def categorize_insights (insights : List Insight) : List (InsightCategory × List Insight) :=
  (allCategories.map (fun c => (c, insights.filter (fun i => i.category == c)))).filter
    (fun p => !p.2.isEmpty)

/-- `InsightEngine.generate_executive_summary`. -/
def generate_executive_summary (insights : List Insight) (kpis : List (String × ℚ)) :
    List String :=
  let critical := insights.filter (fun i => i.severity == .critical)
  let high := insights.filter (fun i => i.severity == .high)
  let lead :=
    if !critical.isEmpty then
      (critical.take 2).map (fun i => "CRITICAL: " ++ i.finding)
    else
      match high with
      | [] => []
      | h :: _ => ["HIGH PRIORITY: " ++ h.finding]
  let k1 :=
    match alookup kpis "total_revenue" with
    | some v => ["Total Revenue: $" ++ fmtNum v]
    | none => []
  let k2 :=
    match alookup kpis "net_margin_pct" with
    | some v => ["Net Margin: " ++ fmtNum v ++ "%"]
    | none => []
  let k3 :=
    match alookup kpis "revenue_growth" with
    | some g => [(if g > 0 then "Revenue Growth: ↑ " else "Revenue Growth: ↓ ") ++ fmtNum |g| ++ "%"]
    | none => []
  let k4 :=
    match alookup kpis "total_stock_value" with
    | some v => ["Inventory Value: $" ++ fmtNum v]
    | none => []
  let k5 :=
    match alookup kpis "days_inventory_outstanding" with
    | some v => ["Days Inventory: " ++ fmtNum v]
    | none => []
  let act :=
    match insights with
    | [] => []
    | i :: _ => ["IMMEDIATE ACTION: " ++ pyTake i.action 100 ++ "..."]
  (lead ++ k1 ++ k2 ++ k3 ++ k4 ++ k5 ++ act).take 7

end InsightEngine

/-! ### RecommendationEngine (`engines/recommendation_engine.py`) -/

namespace RecommendationEngine

/-- `priority_map` inside `_create_recommendation` (total on `Severity`,
so the `.get` default is unreachable). -/
def priority_map (s : ERP.Severity) : Priority :=
  match s with
  | .critical => .immediate
  | .high => .short_term
  | .medium => .short_term
  | .low => .medium_term

/-- `timeline_map` inside `_create_recommendation`. -/
def timeline_map (s : ERP.Severity) : TimeHorizon :=
  match s with
  | .critical => .immediate
  | .high => .immediate
  | .medium => .short_term
  | .low => .medium_term

/-- `_estimate_financial_impact`. -/
def _estimate_financial_impact (i : Insight) : Option ℚ :=
  match alookup i.metrics "value" with
  | some v => some (v * (3 / 10))
  | none =>
    match alookup i.metrics "dead_value" with
    | some v => some (v * (1 / 2))
    | none =>
      match alookup i.metrics "excess_value" with
      | some v => some (v * (1 / 5))
      | none => none

/-- `_financial_action`. -/
def _financial_action (i : Insight) : String × String × String :=
  let finding := pyLower i.finding
  if strContains finding "margin" then
    ("Improve gross margin by 5-10pp", i.impact,
      "1) Renegotiate top 5 supplier contracts\n2) Increase prices on low-margin products\n3) Reduce material waste")
  else if strContains finding "revenue" then
    ("Reverse revenue decline", i.impact,
      "1) Contact top customers\n2) Analyze lost deals\n3) Launch retention campaign")
  else (i.action, i.impact, "1) Analyze\n2) Plan\n3) Execute")

/-- `_manufacturing_action`. -/
def _manufacturing_action (i : Insight) : String × String × String :=
  let finding := pyLower i.finding
  if strContains finding "efficiency" then
    ("Improve efficiency to 95%", i.impact,
      "1) Root cause analysis\n2) Address downtime\n3) Optimize flow")
  else if strContains finding "wastage" then
    ("Reduce wastage below 5%", i.impact,
      "1) QC audit\n2) Review material quality\n3) Retrain operators")
  else (i.action, i.impact, "1) Diagnose\n2) Implement\n3) Monitor")

/-- `_inventory_action`. -/
def _inventory_action (i : Insight) : String × String × String :=
  let finding := pyLower i.finding
  if strContains finding "dead" then
    ("Liquidate dead stock", i.impact,
      "1) Flash sale at 40% off\n2) Clearance channels\n3) Stop reordering")
  else (i.action, i.impact, "1) Review\n2) Liquidate\n3) Improve controls")

/-- `_sales_action`. -/
def _sales_action (i : Insight) : String × String × String :=
  let finding := pyLower i.finding
  if strContains finding "concentration" then
    ("Diversify customer base", i.impact,
      "1) Dedicated account managers\n2) Customer acquisition\n3) New market segments")
  else (i.action, i.impact, "1) Analyze\n2) Execute\n3) Track")

/-- `_generate_action_components`. -/
def _generate_action_components (i : Insight) : String × String × String :=
  match i.category with
  | .financial => _financial_action i
  | .manufacturing => _manufacturing_action i
  | .inventory => _inventory_action i
  | .sales => _sales_action i
  | _ => (i.action, i.impact, "Step 1: Analyze\nStep 2: Implement\nStep 3: Track")

/-- `_create_recommendation` (always returns a value; the `Optional` is
declared but never `None` in the source). -/
def _create_recommendation (i : Insight) : Option Recommendation :=
  let priority := priority_map i.severity
  let timeline := timeline_map i.severity
  let comps := _generate_action_components i
  let estimated_savings := _estimate_financial_impact i
  some
    { title := pyUpper i.severity.value ++ ": " ++ pyTake i.finding 50 ++ "..."
      what := comps.1
      why := i.impact
      how := comps.2.2
      impact := "Expected " ++ pyTake i.action 100 ++ "..."
      priority := priority
      timeline := timeline
      estimated_savings := estimated_savings }

/-- `generate_recommendations`: one recommendation per insight (`if rec:` is
always true on a model instance). -/
def generate_recommendations (insights : List Insight) : List Recommendation :=
  (insights.map _create_recommendation).filterMap id

end RecommendationEngine

/-! ### RiskEngine (`engines/risk_engine.py`) -/

namespace RiskEngine

/-- `_insight_to_risk`. -/
def _insight_to_risk (i : Insight) : Risk :=
  { title := "Risk: " ++ pyTake i.finding 80
    category := i.category
    description := i.finding
    probability := if i.severity == .critical then "High" else "Medium-High"
    financial_impact := i.impact
    time_to_impact := "3-6 months"
    severity := i.severity
    mitigation := i.action }

/-- The risk appended when `net_margin_pct < 5`. -/
def marginRisk (m : ℚ) : Risk :=
  { title := "Margin Erosion Risk"
    category := .financial
    description := "Net margin at " ++ fmtNum m ++ "% - critically low"
    probability := "High"
    financial_impact := "Business at risk of losses"
    time_to_impact := "1-3 months"
    severity := .critical
    mitigation := "Immediate cost reduction and pricing review" }

/-- The risk appended when `days_inventory_outstanding > 90`. -/
def inventoryRisk (d stockValue : ℚ) : Risk :=
  { title := "Inventory Obsolescence Risk"
    category := .inventory
    description := "Days inventory at " ++ fmtNum d ++ " - too high"
    probability := "Medium-High"
    financial_impact := "$" ++ fmtNum stockValue ++ " at risk"
    time_to_impact := "3-6 months"
    severity := .high
    mitigation := "Accelerate turnover, reduce stock levels" }

/-- `_identify_kpi_risks`: direct KPI-threshold scans per domain. -/
def _identify_kpi_risks (analysis_results : List (String × AnalysisResultM)) : List Risk :=
  (analysis_results.map (fun p =>
    let kpis := p.2.kpis
    (match alookup kpis "net_margin_pct" with
     | some m => if m < 5 then [marginRisk m] else []
     | none => []) ++
    (match alookup kpis "days_inventory_outstanding" with
     | some d => if d > 90 then [inventoryRisk d ((alookup kpis "total_stock_value").getD 0)] else []
     | none => []))).flatten

/-- Risk deduplication key: `risk.title[:50].lower().strip()`. -/
def riskKey (r : Risk) : String :=
  pyStrip (pyLower (pyTake r.title 50))

/-- `_deduplicate_risks`. -/
def _deduplicate_risks (risks : List Risk) : List Risk :=
  seenDedup riskKey [] risks

/-- `RiskEngine.identify_risks`. -/
def identify_risks (analysis_results : List (String × AnalysisResultM))
    (insights : List Insight) : List Risk :=
  let fromInsights :=
    (insights.filter (fun i => i.severity == .critical || i.severity == .high)).map
      _insight_to_risk
  _deduplicate_risks (fromInsights ++ _identify_kpi_risks analysis_results)

end RiskEngine

/-! ### DataFrame model

pandas DataFrames are modelled column-major: a column has a name, a dtype tag
(`object` / numeric / datetime - the three dtypes this pipeline distinguishes)
and a list of cells.  Rows are the index-aligned cross-sections. -/

/-- Column dtype tag. -/
inductive Dtype
  | obj
  | num
  | dts
deriving DecidableEq, Repr

/-- A scalar cell: missing (`NaN`/`NaT`/`None`), a string, a float (exact
rational) or a datetime (timestamp as a rational). -/
inductive Cell
  | na
  | str (s : String)
  | num (q : ℚ)
  | date (t : ℚ)
deriving DecidableEq, Repr

/-- One DataFrame column. -/
structure Col where
  name : String
  dtype : Dtype
  cells : List Cell
deriving DecidableEq, Repr

/-- A DataFrame. -/
structure Df where
  cols : List Col
deriving DecidableEq, Repr

/-- Rectangularity: all columns have the same number of cells. -/
def Df.Wf (df : Df) : Prop :=
  ∀ c ∈ df.cols, ∀ c₂ ∈ df.cols, c.cells.length = c₂.cells.length

/-- Row count (`len(df)`). -/
def Df.nRows (df : Df) : ℕ :=
  match df.cols with
  | [] => 0
  | c :: _ => c.cells.length

/-- `df.columns`. -/
def Df.names (df : Df) : List String :=
  df.cols.map Col.name

/-- Python `round(x, 2)` (banker's rounding, exact on rationals). -/
def round2 (q : ℚ) : ℚ :=
  ((if q * 100 - ⌊q * 100⌋ < 1 / 2 then ⌊q * 100⌋
    else if q * 100 - ⌊q * 100⌋ > 1 / 2 then ⌊q * 100⌋ + 1
    else if ⌊q * 100⌋ % 2 = 0 then ⌊q * 100⌋
    else ⌊q * 100⌋ + 1 : ℤ) : ℚ) / 100

/-! ### SchemaDetector (`data_loader/schema_detector.py`) -/

namespace SchemaDetector

/-- `COLUMN_MAPPINGS` (synonym table), in source/dict order. -/
def COLUMN_MAPPINGS : List (String × List String) :=
  [("revenue", ["revenue", "sales", "total_revenue", "gross_sales", "turnover"]),
   ("cost_of_goods_sold", ["cogs", "cost_of_goods", "cost_of_sales", "direct_costs"]),
   ("gross_profit", ["gross_profit", "gross_margin", "gross_earnings"]),
   ("operating_expenses", ["operating_expenses", "opex", "operating_costs", "operating_overhead"]),
   ("operating_income", ["operating_income", "operating_profit", "ebit"]),
   ("net_income", ["net_income", "net_profit", "net_earnings", "bottom_line", "profit_after_tax"]),
   ("period", ["period", "date", "month", "year", "quarter", "fiscal_period", "posting_date"]),
   ("budget", ["budget", "budgeted", "planned", "forecast"]),
   ("product_id", ["product_id", "product_code", "item_code", "material_code", "sku"]),
   ("product_name", ["product_name", "item_name", "description", "material_description"]),
   ("planned_quantity", ["planned_quantity", "planned_output", "target_quantity", "planned"]),
   ("actual_quantity", ["actual_quantity", "actual_output", "produced", "actual"]),
   ("good_quantity", ["good_quantity", "good_units", "conforming", "first_pass"]),
   ("rejected_quantity", ["rejected_quantity", "rejections", "scrap", "non_conforming"]),
   ("wastage_quantity", ["wastage", "waste", "损耗"]),
   ("production_line", ["production_line", "line", "work_center", "machine", "equipment"]),
   ("efficiency", ["efficiency", "efficiency_rate", "oee", "utilization"]),
   ("sku", ["sku", "product_code", "item_code", "material_code", "product_id"]),
   ("quantity", ["quantity", "qty", "on_hand", "stock", "inventory_qty"]),
   ("unit_cost", ["unit_cost", "cost_per_unit", "standard_cost", "avg_cost"]),
   ("unit_price", ["unit_price", "selling_price", "price", "retail_price"]),
   ("receipt_date", ["receipt_date", "received_date", "doc_date", "posting_date"]),
   ("last_movement_date", ["last_movement", "last_issue", "last_sale", "last_activity"]),
   ("warehouse", ["warehouse", "warehouse_id", "location", "site", "plant"]),
   ("order_id", ["order_id", "order_number", "order_no", "sales_order", "so_number"]),
   ("customer_id", ["customer_id", "customer_code", "client_id", "account"]),
   ("customer_name", ["customer_name", "customer", "client", "account_name", "company"]),
   ("order_date", ["order_date", "order_dt", "sales_date", "transaction_date"]),
   ("discount", ["discount", "discount_amount", "disc", "allowance"]),
   ("po_number", ["po_number", "purchase_order", "po_no", "purchase_order_no"]),
   ("supplier_id", ["supplier_id", "vendor_id", "supplier_code", "vendor_code"]),
   ("supplier_name", ["supplier_name", "vendor", "supplier", "vendor_name"]),
   ("quantity_ordered", ["quantity_ordered", "ordered_qty", "po_quantity"]),
   ("quantity_received", ["quantity_received", "received_qty", "receipt_qty"]),
   ("expected_delivery_date", ["expected_delivery", "delivery_date", "promised_date"]),
   ("actual_delivery_date", ["actual_delivery", "delivery_received", "received_date"])]

/-- `TYPE_KEYWORDS` (data-type detection keywords; note `"supplier"` appears
twice in the purchase list, as in the source). -/
def TYPE_KEYWORDS : ERP.DataType → List String
  | .financial =>
    ["revenue", "profit", "margin", "expense", "income", "cogs", "budget", "forecast",
     "gross", "net", "operating", "ebitda", "ebit"]
  | .manufacturing =>
    ["production", "planned", "actual", "good", "rejected", "wastage", "yield",
     "efficiency", "output", "throughput", "downtime", "oee"]
  | .inventory =>
    ["sku", "stock", "inventory", "quantity", "on_hand", "warehouse", "receipt",
     "movement", "aging", "coverage", "reorder", "safety"]
  | .sales =>
    ["order", "customer", "sales", "discount", "tax", "channel", "region",
     "segment", "sales_rep", "rep"]
  | .purchase =>
    ["po", "purchase_order", "supplier", "vendor", "lead_time", "delivery",
     "receipt", "supplier"]
  | .unknown => []

/-- The iteration order of `{dt: 0 for dt in DataType if dt != UNKNOWN}`. -/
def nonUnknownTypes : List ERP.DataType :=
  [.financial, .manufacturing, .inventory, .sales, .purchase]

/-- `c.lower().replace(' ', '_').replace('-', '_')` - column-name normalization
used by the detector. -/
def normColName (s : String) : String :=
  pyReplaceChar (pyReplaceChar (pyLower s) ' ' '_') '-' '_'

/-- Score of one data type: one point per (column, keyword) pair with the
keyword a substring of the normalized column name. -/
def typeScore (cols_lower : List String) (dt : ERP.DataType) : ℕ :=
  (cols_lower.map
    (fun col => ((TYPE_KEYWORDS dt).filter (fun kw => strContains col kw)).length)).sum

/-- `SchemaDetector.detect_with_confidence` (scores column names only; the
content scan exists only in `detect_data_type`). -/
def detect_with_confidence (df : Df) : ERP.DataType × ℚ :=
  let cols_lower := df.names.map normColName
  let col_count := cols_lower.length
  if col_count = 0 then (.unknown, 0)
  else
    let scores := nonUnknownTypes.map (fun dt => (dt, typeScore cols_lower dt))
    let max_score := (scores.map Prod.snd).foldl max 0
    let confidence := min ((max_score : ℚ) / max 3 ((col_count : ℚ) * (1 / 2))) 1
    if max_score = 0 then (.unknown, 0)
    else
      match scores.find? (fun p => p.2 == max_score) with
      | some p => (p.1, round2 confidence)
      | none => (.unknown, 0)

/-- `ColumnMapping` pydantic model. -/
structure ColumnMapping where
  column_name : String
  expected_field : String
  confidence : ℚ
deriving DecidableEq, Repr

/-- `SchemaMatch` pydantic model. -/
structure SchemaMatch where
  data_type : ERP.DataType
  confidence : ℚ
  matched_columns : List String
  missing_columns : List String
  column_mappings : List ColumnMapping
  suggested_fields : List (String × String)
deriving DecidableEq, Repr

/-- Word character for the regex `\b` assertion (`\w`): ASCII alphanumeric or
underscore (the synonym table is ASCII apart from one CJK entry, modelled as
non-word). -/
def isWordChar (c : Char) : Bool :=
  c.isAlphanum || c == '_'

/-- Strip `pat` off the front of `hay`, returning the remainder. -/
def dropPre : List Char → List Char → Option (List Char)
  | [], hay => some hay
  | _ :: _, [] => none
  | a :: as, b :: bs => if a == b then dropPre as bs else none

/-- `\b` boundary test between two optional neighbours (out-of-range counts
as non-word; a boundary is a word/non-word transition). -/
def wordBoundary (a b : Option Char) : Bool :=
  (match a with | none => false | some c => isWordChar c) !=
    (match b with | none => false | some c => isWordChar c)

/-- Scan of `re.search(r'\b' + re.escape(pat) + r'\b', hay)` for a non-empty
literal pattern: some occurrence of `pat` with `\b` holding on both sides. -/
def wbSearchAux (pat : List Char) (pfirst plast : Char) (prev : Option Char) :
    List Char → Bool
  | [] => false
  | c :: rest =>
    (wordBoundary prev (some pfirst) &&
      (match dropPre pat (c :: rest) with
       | some after => wordBoundary (some plast) after.head?
       | none => false)) ||
    wbSearchAux pat pfirst plast (some c) rest

/-- `re.search(r'\b' + re.escape(variation) + r'\b', col_lower)` as a Bool. -/
def reWordSearch (pat hay : String) : Bool :=
  match pat.data with
  | [] => true
  | pf :: rest => wbSearchAux pat.data pf (rest.getLastD pf) none hay.data

/-- The inner loop of `_map_column` over one field's variation list. -/
def tryVariations (col_name col_lower field : String) :
    List String → Option ColumnMapping
  | [] => none
  | v :: vs =>
    if col_lower = v then some ⟨col_name, field, 1⟩
    else if reWordSearch v col_lower then some ⟨col_name, field, 9 / 10⟩
    else if v.length ≤ 4 && (pyStartsWith col_lower v || pyEndsWith col_lower v) then
      some ⟨col_name, field, 4 / 5⟩
    else tryVariations col_name col_lower field vs

/-- The outer loop of `_map_column` over `COLUMN_MAPPINGS`. -/
def mapColAux (col_name col_lower : String) :
    List (String × List String) → Option ColumnMapping
  | [] => none
  | (field, variations) :: rest =>
    match tryVariations col_name col_lower field variations with
    | some m => some m
    | none => mapColAux col_name col_lower rest

/-- `SchemaDetector._map_column` (the `data_type` argument is accepted but,
as in the source, never used: all synonym groups are scanned). -/
def _map_column (col_name : String) (_data_type : ERP.DataType) : Option ColumnMapping :=
  mapColAux col_name (normColName col_name) COLUMN_MAPPINGS

/-- `SchemaDetector._get_required_fields`. -/
def _get_required_fields (dt : ERP.DataType) : List String :=
  match dt with
  | .financial => ["revenue", "period"]
  | .manufacturing => ["product_id", "planned_quantity", "actual_quantity"]
  | .inventory => ["sku", "quantity", "unit_cost"]
  | .sales => ["order_id", "product_id", "quantity", "total_amount"]
  | .purchase => ["po_number", "supplier_id", "quantity_ordered", "unit_price"]
  | .unknown => []

/-- `required_confidence` as computed inside `create_schema_match`. -/
def requiredConfidence (df : Df) (data_type : ERP.DataType) : ℚ :=
  let column_mappings := df.names.filterMap (fun c => _map_column c data_type)
  let required_fields := _get_required_fields data_type
  let matched_fields := column_mappings.map ColumnMapping.expected_field
  let matched_count := matched_fields.length
  let required_count := required_fields.length
  let required_matched := (required_fields.filter (fun f => matched_fields.contains f)).length
  if required_count > 0 then (required_matched : ℚ) / (required_count : ℚ)
  else if matched_count > 0 then (matched_count : ℚ) / 10
  else 0

/-- `SchemaDetector.create_schema_match`. -/
def create_schema_match (df : Df) (data_type : ERP.DataType) : SchemaMatch :=
  if data_type = .unknown then
    { data_type := .unknown
      confidence := 0
      matched_columns := []
      missing_columns := df.names
      column_mappings := []
      suggested_fields := [] }
  else
    let column_mappings := df.names.filterMap (fun c => _map_column c data_type)
    let matched_cols := df.names.filter (fun c => (_map_column c data_type).isSome)
    let suggested := column_mappings.map (fun m => (m.column_name, m.expected_field))
    let required_fields := _get_required_fields data_type
    let matched_fields := column_mappings.map ColumnMapping.expected_field
    let missing_fields := required_fields.filter (fun f => !matched_fields.contains f)
    let total_confidence := min (1 / 2 + requiredConfidence df data_type * (1 / 2)) 1
    { data_type := data_type
      confidence := round2 total_confidence
      matched_columns := matched_cols
      missing_columns := missing_fields
      column_mappings := column_mappings
      suggested_fields := suggested }

/-- One step of building `rename_map` / `used_targets` in `normalize_columns`. -/
def renameStep (data_type : ERP.DataType) (acc : List (String × String) × List String)
    (c : Col) : List (String × String) × List String :=
  match _map_column c.name data_type with
  | none => acc
  | some m =>
    let target := m.expected_field
    if acc.2.contains target && pyLower c.name != target then acc
    else if pyLower c.name == target then acc
    else (acc.1 ++ [(c.name, target)], acc.2 ++ [target])

/-- `SchemaDetector.normalize_columns`: rename matched columns to canonical
names; when the canonical name already exists as a column, drop the mapped
column instead of overwriting. -/
def normalize_columns (df : Df) (data_type : ERP.DataType) : Df :=
  let rename_map := (df.cols.foldl (renameStep data_type) ([], [])).1
  rename_map.foldl
    (fun d p =>
      if (d.names).contains p.2 then
        ⟨d.cols.filter (fun c => c.name != p.1)⟩
      else
        ⟨d.cols.map (fun c => if c.name == p.1 then { c with name := p.2 } else c)⟩)
    df

end SchemaDetector

/-! ### DataCleaner (`data_loader/cleaners.py`) -/

namespace DataCleaner

/-- An entry of the cleaner's `changes_log` (change type and affected count;
timestamp and free-text description elided). -/
structure LogEntry where
  typ : String
  affected : ℕ
deriving DecidableEq, Repr

/-- `DataQualityIssue` pydantic model. -/
structure DataQualityIssue where
  column : String
  issue_type : String
  affected_rows : ℕ
  severity : ERP.Severity
  description : String
  recommendation : String
deriving DecidableEq, Repr

/-- Keep the entries of `l` whose mask bit is true. -/
def applyMask (mask : List Bool) (l : List α) : List α :=
  ((mask.zip l).filter (fun p => p.1)).map Prod.snd

/-- Number of missing cells. -/
def naCount (cells : List Cell) : ℕ :=
  cells.countP (fun c => c == Cell.na)

/-- Row `i` of a DataFrame (out-of-range cells read as missing). -/
def dfRow (df : Df) (i : ℕ) : List Cell :=
  df.cols.map (fun c => c.cells.getD i Cell.na)

/-- Is row `i` entirely missing? -/
def rowIsAllNa (df : Df) (i : ℕ) : Bool :=
  df.cols.all (fun c => c.cells.getD i Cell.na == Cell.na)

/-- `df.dropna(how='all')`, with the number of rows removed. -/
def dropAllNaRows (df : Df) : Df × ℕ :=
  let mask := (List.range df.nRows).map (fun i => !rowIsAllNa df i)
  (⟨df.cols.map (fun c => { c with cells := applyMask mask c.cells })⟩,
   df.nRows - mask.countP id)

/-- Keep-mask of `df.drop_duplicates()` (keep a row iff no strictly earlier
row is equal to it; pandas treats missing values as equal here). -/
def dupMask (df : Df) : List Bool :=
  (List.range df.nRows).map (fun i => decide (∀ j < i, dfRow df j ≠ dfRow df i))

/-- `df.drop_duplicates()`, with the number of rows removed. -/
def dropDupRows (df : Df) : Df × ℕ :=
  let mask := dupMask df
  (⟨df.cols.map (fun c => { c with cells := applyMask mask c.cells })⟩,
   df.nRows - mask.countP id)

/-- One character of the column-name standardization: separators (`\s`, `-`,
`/`). -/
def isSepChar (c : Char) : Bool :=
  c.isWhitespace || c == '-' || c == '/'

/-- The first `re.sub` of the name cleaner: collapse each run of separator
characters (whitespace, dash, slash) to a single underscore. -/
def collapseSepsAux (prevSep : Bool) : List Char → List Char
  | [] => []
  | c :: rest =>
    if isSepChar c then
      (if prevSep then collapseSepsAux true rest else '_' :: collapseSepsAux true rest)
    else c :: collapseSepsAux false rest

/-- The full column-name transform of `_clean_column_names`:
`col.lower().strip()`, collapse separator runs to `_`, drop non-word
characters. -/
def cleanColName (s : String) : String :=
  String.mk
    ((collapseSepsAux false (pyStripList (s.data.map Char.toLower))).filter
      SchemaDetector.isWordChar)

/-- `DataCleaner._clean_column_names` (one `rename_columns` log entry when
any column was renamed; its `affected` is the number of renamed columns). -/
def _clean_column_names (df : Df) : Df × List LogEntry :=
  let renamed := df.cols.countP (fun c => cleanColName c.name != c.name)
  (⟨df.cols.map (fun c => { c with name := cleanColName c.name })⟩,
   if renamed > 0 then [⟨"rename_columns", renamed⟩] else [])

/-- Date-like column names (`'date'`/`'time'`/`'period'` in the lowered name). -/
def dateLike (name : String) : Bool :=
  strContains (pyLower name) "date" || strContains (pyLower name) "time" ||
    strContains (pyLower name) "period"

/-- Parse a non-empty all-digit character list. -/
def parseNatL (l : List Char) : Option ℕ :=
  if !l.isEmpty && l.all Char.isDigit then
    some (l.foldl (fun a c => a * 10 + (c.toNat - 48)) 0)
  else none

/-- Models `pd.to_datetime(·, errors='coerce')` on strings: ISO `YYYY-MM-DD`
strings parse (encoded as `y*10000 + m*100 + d`), everything else coerces to
`NaT`.  (pandas accepts more formats; only parse-success vs `NaT` matters to
the pipeline.) -/
def parseDateStr (s : String) : Option ℚ :=
  match splitOnChar '-' s with
  | [y, m, d] =>
    match parseNatL y, parseNatL m, parseNatL d with
    | some yy, some mm, some dd =>
      if 1 ≤ mm ∧ mm ≤ 12 ∧ 1 ≤ dd ∧ dd ≤ 31 then
        some (((yy * 10000 + mm * 100 + dd : ℕ) : ℚ))
      else none
    | _, _, _ => none
  | _ => none

/-- `pd.to_datetime` applied to one cell (numbers convert to timestamps,
per-cell failures coerce to `NaT`). -/
def toDatetimeCell : Cell → Cell
  | .na => .na
  | .date t => .date t
  | .num q => .date q
  | .str s =>
    match parseDateStr s with
    | some t => .date t
    | none => .na

/-- `_convert_dates` on one column. -/
def convertDatesCol (c : Col) : Col × List LogEntry :=
  if dateLike c.name then
    let newCells := c.cells.map toDatetimeCell
    let o := naCount c.cells
    let n := naCount newCells
    ({ name := c.name, dtype := .dts, cells := newCells },
     if n > o then [⟨"date_conversion", n - o⟩] else [])
  else (c, [])

/-- `DataCleaner._convert_dates`. -/
def _convert_dates (df : Df) : Df × List LogEntry :=
  (⟨df.cols.map (fun c => (convertDatesCol c).1)⟩,
   (df.cols.map (fun c => (convertDatesCol c).2)).flatten)

/-- Column-name patterns treated as numeric by `_clean_numerics`. -/
def numericPatterns : List String :=
  ["amount", "revenue", "cost", "price", "quantity", "qty",
   "total", "margin", "profit", "rate", "pct", "percent"]

/-- Does a column name look numeric? -/
def numericLike (name : String) : Bool :=
  numericPatterns.any (fun p => strContains (pyLower name) p)

/-- Strip `$`, `,`, whitespace and `%` (the `str.replace` chain). -/
def stripMoneyChars (l : List Char) : List Char :=
  l.filter (fun c => !(c == '$' || c == ',' || c.isWhitespace || c == '%'))

/-- The parenthesized-negative rewrite: after stripping, `(digits)` becomes
`-digits` (collapses the two regex rewrites of the source for well-formed
inputs). -/
def parenNegRewrite (l : List Char) : List Char :=
  match l with
  | '(' :: rest =>
    match rest.getLast? with
    | some ch =>
      if ch == ')' && (rest.dropLast.all Char.isDigit) && !rest.dropLast.isEmpty then
        '-' :: rest.dropLast
      else l
    | none => l
  | _ => l

/-- Unsigned decimal literal (`digits`, `digits.digits`, `.digits`). -/
def parseUnsigned (l : List Char) : Option ℚ :=
  let intPart := l.takeWhile Char.isDigit
  let rest := l.dropWhile Char.isDigit
  match rest with
  | [] => (parseNatL intPart).map (fun n => (n : ℚ))
  | '.' :: fracPart =>
    if fracPart.all Char.isDigit && (!intPart.isEmpty || !fracPart.isEmpty) then
      some (((parseNatL intPart).getD 0 : ℚ) +
        ((parseNatL fracPart).getD 0 : ℚ) / ((10 : ℚ) ^ fracPart.length))
    else none
  | _ => none

/-- Signed decimal literal. -/
def parseDecimal (l : List Char) : Option ℚ :=
  match l with
  | '-' :: rest => (parseUnsigned rest).map Neg.neg
  | _ => parseUnsigned l

/-- `pd.to_numeric(·, errors='coerce')` after the symbol-stripping chain, on
one cell (`astype(str)` renders missing as `"nan"`, which coerces back to
missing; datetimes do not parse). -/
def toNumericCell : Cell → Option ℚ
  | .na => none
  | .num q => some q
  | .date _ => none
  | .str s => parseDecimal (parenNegRewrite (stripMoneyChars s.data))

/-- `_clean_numerics` on one column. -/
def cleanNumericsCol (c : Col) : Col × List LogEntry :=
  if numericLike c.name && c.dtype == Dtype.obj then
    let parsed := c.cells.map toNumericCell
    let nnOrig := c.cells.countP (fun x => x != Cell.na)
    let nnNum := parsed.countP Option.isSome
    if (nnNum : ℚ) > (nnOrig : ℚ) * (1 / 2) then
      ({ name := c.name, dtype := .num,
         cells := parsed.map (fun o =>
           match o with
           | some q => Cell.num q
           | none => Cell.na) },
       [⟨"clean_numeric", nnOrig⟩])
    else (c, [])
  else (c, [])

/-- `DataCleaner._clean_numerics`. -/
def _clean_numerics (df : Df) : Df × List LogEntry :=
  (⟨df.cols.map (fun c => (cleanNumericsCol c).1)⟩,
   (df.cols.map (fun c => (cleanNumericsCol c).2)).flatten)

/-- Numeric values of a column (missing skipped). -/
def colNums (cells : List Cell) : List ℚ :=
  cells.filterMap (fun c =>
    match c with
    | .num q => some q
    | _ => none)

/-- `Series.median()` (missing skipped; mean of the two middles when even). -/
def median (l : List ℚ) : Option ℚ :=
  let s := InsightEngine.isortStable (fun a b => decide (a ≤ b)) l
  match s with
  | [] => none
  | _ =>
    let n := s.length
    if n % 2 = 1 then some (s.getD (n / 2) 0)
    else some ((s.getD (n / 2 - 1) 0 + s.getD (n / 2) 0) / 2)

/-- `fillna`: replace missing cells with `v`. -/
def fillCell (v : Cell) : Cell → Cell
  | .na => v
  | c => c

/-- `_handle_missing_values` on one column (`nrows` is `len(df)`). -/
def handleMissingCol (nrows : ℕ) (c : Col) : Col × List LogEntry :=
  let missing := naCount c.cells
  if missing = 0 then (c, [])
  else
    let pct : ℚ := (missing : ℚ) / (nrows : ℚ) * 100
    if c.dtype == Dtype.num && pct < 10 then
      match median (colNums c.cells) with
      | some m => ({ c with cells := c.cells.map (fillCell (Cell.num m)) },
                   [⟨"fillna_median", missing⟩])
      | none => (c, [])
    else if c.dtype == Dtype.obj then
      ({ c with cells := c.cells.map (fillCell (Cell.str "Unknown")) },
       [⟨"fillna_unknown", missing⟩])
    else (c, [])

/-- `DataCleaner._handle_missing_values`. -/
def _handle_missing_values (df : Df) : Df × List LogEntry :=
  (⟨df.cols.map (fun c => (handleMissingCol df.nRows c).1)⟩,
   (df.cols.map (fun c => (handleMissingCol df.nRows c).2)).flatten)

/-- The `duplicate` quality issue appended by `clean`. -/
def dupIssue (n : ℕ) : DataQualityIssue :=
  { column := "_all_"
    issue_type := "duplicate"
    affected_rows := n
    severity := .medium
    description := "Found and removed " ++ toString n ++ " duplicate rows"
    recommendation := "Data cleaned - duplicates removed" }

/-- `DataCleaner.clean`: the cleaned DataFrame, the returned issue list, and
the entries appended to the private `changes_log` during this call. -/
def clean (df : Df) : Df × List DataQualityIssue × List LogEntry :=
  let r1 := dropAllNaRows df
  let r2 := dropDupRows r1.1
  let log1 : List LogEntry := if r1.2 > 0 then [⟨"remove_empty_rows", r1.2⟩] else []
  let log2 : List LogEntry := if r2.2 > 0 then [⟨"remove_duplicates", r2.2⟩] else []
  let issues : List DataQualityIssue := if r2.2 > 0 then [dupIssue r2.2] else []
  let r3 := _clean_column_names r2.1
  let r4 := _convert_dates r3.1
  let r5 := _clean_numerics r4.1
  let r6 := _handle_missing_values r5.1
  (r6.1, issues, log1 ++ log2 ++ r3.2 ++ r4.2 ++ r5.2 ++ r6.2)

end DataCleaner

/-! ### BaseAnalyzer shared heuristics (`analyzers/base_analyzer.py`) -/

namespace BaseAnalyzer

/-- `df[name]` (first column with the label). -/
def findCol (df : Df) (name : String) : Option Col :=
  df.cols.find? (fun c => c.name == name)

/-- Numeric view of a value cell (non-numeric / missing cells are skipped by
pandas `sum`, as `NaN`). -/
def cellVal : Cell → Option ℚ
  | .num q => some q
  | _ => none

/-- One entry of the Pareto tables: category key, summed value, cumulative
percentage (rounded). -/
structure ParetoEntry where
  category : Cell
  value : ℚ
  cumulative_pct : ℚ
deriving DecidableEq, Repr

/-- Result dictionary of `pareto_analysis`. -/
structure ParetoData where
  total_value : ℚ
  items_for_80_pct : ℕ
  items_for_80_contribution : ℚ
  top_20_contribution_pct : ℚ
  concentration : String
  top_contributors : List ParetoEntry
  full_pareto : List ParetoEntry
deriving DecidableEq, Repr

/-- `pareto_analysis` either returns its data or an `{'error': ...}` dict. -/
inductive ParetoResult
  | error (msg : String)
  | ok (d : ParetoData)
deriving DecidableEq, Repr

/-- Distinct category keys in first-appearance order (rows whose key is
missing are dropped by `groupby`). -/
def paretoKeys (pairs : List (Cell × Option ℚ)) : List Cell :=
  pairs.foldl
    (fun acc p => if p.1 == Cell.na || acc.contains p.1 then acc else acc ++ [p.1]) []

/-- Group sums of `groupby(category)[value].sum()`. -/
def groupSums (pairs : List (Cell × Option ℚ)) : List (Cell × ℚ) :=
  (paretoKeys pairs).map
    (fun k => (k, ((pairs.filter (fun p => p.1 == k)).filterMap Prod.snd).sum))

/-- Prefix sums (`cumsum`). -/
def cumsum (l : List ℚ) : List ℚ :=
  (l.scanl (· + ·) 0).tail

/-- `BaseAnalyzer.pareto_analysis`.  The descending sort over group sums is
modelled stably; pandas leaves the relative order of equal sums unspecified,
and every returned field is invariant under permuting equal sums. -/
def pareto_analysis (df : Df) (category_col value_col : String) (top_n : ℕ := 10) :
    ParetoResult :=
  match findCol df category_col, findCol df value_col with
  | some cc, some vc =>
    let pairs := cc.cells.zip (vc.cells.map cellVal)
    let agg := InsightEngine.isortStable (fun a b => decide (b.2 ≤ a.2)) (groupSums pairs)
    let total := (agg.map Prod.snd).sum
    if total = 0 then .error "Total value is zero"
    else
      let cumulative_pct := (cumsum (agg.map Prod.snd)).map (fun c => c / total * 100)
      let items_for_80 := min ((cumulative_pct.countP (fun x => decide (x ≤ 80))) + 1) agg.length
      let top_20_count := if agg.length > 5 then agg.length * 2 / 10 else 1
      let top_20_pct := ((agg.take top_20_count).map Prod.snd).sum
      let top_20_contribution := if total > 0 then top_20_pct / total * 100 else 0
      let entries := (agg.zip cumulative_pct).map
        (fun p => ParetoEntry.mk p.1.1 p.1.2 (round2 p.2))
      .ok
        { total_value := total
          items_for_80_pct := items_for_80
          items_for_80_contribution :=
            round2 ((((agg.take items_for_80).map Prod.snd).sum) / total * 100)
          top_20_contribution_pct := round2 top_20_contribution
          concentration :=
            if top_20_contribution > 80 then "HIGH"
            else if top_20_contribution > 60 then "MEDIUM"
            else "LOW"
          top_contributors := entries.take top_n
          full_pareto := entries }
  | _, _ => .error "Required columns missing"

end BaseAnalyzer

/-! ### Orchestrator (`agent_modules/orchestrator.py`) -/

namespace Orchestrator

/-- A cross-domain insight (`_generate_cross_domain_insights` emits plain
dicts with these four string fields, not `Insight` objects). -/
structure CrossInsight where
  finding : String
  impact : String
  action : String
  severity : String
deriving DecidableEq, Repr

/-- `_generate_cross_domain_insights` (category read through
`get_category` = lowered `category.value`). -/
def _generate_cross_domain_insights (all_insights : List Insight) : List CrossInsight :=
  let catOf := fun (i : Insight) => pyLower i.category.value
  let inventory_issues := all_insights.filter (fun i => strContains (catOf i) "inventory")
  let sales_issues := all_insights.filter
    (fun i => strContains (catOf i) "sales" || strContains (catOf i) "revenue")
  let financial_issues := all_insights.filter (fun i => strContains (catOf i) "financial")
  let mfg_issues := all_insights.filter (fun i => strContains (catOf i) "manufacturing")
  let purchase_issues := all_insights.filter (fun i => strContains (catOf i) "purchase")
  (if inventory_issues.length > 2 && sales_issues.length > 0 then
    [⟨"Multiple inventory issues detected alongside sales concerns",
      "Potential inventory-sales mismatch affecting working capital",
      "Conduct cross-functional review of inventory and sales planning",
      "medium"⟩]
   else []) ++
  (if financial_issues.length > 1 && mfg_issues.length > 1 then
    [⟨"Financial costs correlated with manufacturing issues",
      "Production inefficiencies may be driving up costs",
      "Analyze cost drivers in manufacturing process",
      "medium"⟩]
   else []) ++
  (if inventory_issues.length > 1 && purchase_issues.length > 0 then
    [⟨"Inventory issues may relate to purchase/supplier performance",
      "Supplier delays or quality issues affecting inventory levels",
      "Review supplier performance metrics and lead times",
      "low"⟩]
   else [])

/-- `dt_map`: lowercased domain key to `DataType`. -/
def dtMap (s : String) : Option ERP.DataType :=
  if s = "financial" then some .financial
  else if s = "manufacturing" then some .manufacturing
  else if s = "inventory" then some .inventory
  else if s = "sales" then some .sales
  else if s = "purchase" then some .purchase
  else none

/-- The unified multi-file result (`generated_at` and the constant
`data_quality` field elided). -/
structure MultiFileResult where
  data_types : List String
  enabled_domains : List String
  executive_summary : List String
  kpis : List (String × List (String × ℚ))
  insights_by_category : List (String × List Insight)
  cross_domain_insights : List CrossInsight
  critical_risks : List Risk
  action_plan : List Recommendation
  charts_data : List (String × List (String × ℚ))
  total_insights : ℕ
  critical_count : ℕ
  analysis_mode : String
  files_analyzed : ℕ
deriving DecidableEq, Repr

/-- The explicit zero-domain result. -/
def emptyMultiFileResult (analysis_level : String) : MultiFileResult :=
  { data_types := []
    enabled_domains := []
    executive_summary := ["No valid data detected. Please upload files with required columns."]
    kpis := []
    insights_by_category := []
    cross_domain_insights := []
    critical_risks := []
    action_plan := []
    charts_data := []
    total_insights := 0
    critical_count := 0
    analysis_mode := "multi_file_" ++ pyLower analysis_level
    files_analyzed := 0 }

/-- Accumulator of the per-domain loop: `all_results`, `all_kpis`,
`all_charts`, `enabled_domains`. -/
structure LoopAcc where
  all_results : List (String × AnalysisResultM)
  all_kpis : List (String × List (String × ℚ))
  all_charts : List (String × List (String × ℚ))
  enabled_domains : List String
deriving Repr

/-- `matched_fields` of the per-domain loop: the canonical fields hit by the
schema match. -/
def matchedFields (df : Df) (dt : ERP.DataType) : List String :=
  (SchemaDetector.create_schema_match df dt).column_mappings.map
    SchemaDetector.ColumnMapping.expected_field

/-- The required-field coverage ratio
`len(required_matched) / max(len(required_fields), 1)` tested by the gate. -/
def requiredRatio (df : Df) (dt : ERP.DataType) : ℚ :=
  let required_fields := SchemaDetector._get_required_fields dt
  let required_matched := required_fields.filter (fun f => (matchedFields df dt).contains f)
  ((required_matched.length : ℕ) : ℚ) / ((max required_fields.length 1 : ℕ) : ℚ)

/-- The body of the per-domain loop of `analyze_multi_file`.  `analyzers`
stands for the five domain analyzers (`analyzer_map[dt](df).analyze()`);
a `none` result models an exception raised during analysis, which the
`except` clause turns into a skip. -/
def domainStep (analyzers : ERP.DataType → Df → Option AnalysisResultM)
    (acc : LoopAcc) (p : String × Df) : LoopAcc :=
  match dtMap (pyLower p.1) with
  | none => acc
  | some dt =>
    let schema_match := SchemaDetector.create_schema_match p.2 dt
    if schema_match.confidence < 1 / 2 then acc
    else
      if requiredRatio p.2 dt < 1 / 2 then acc
      else
        let df_normalized := SchemaDetector.normalize_columns p.2 dt
        match analyzers dt df_normalized with
        | none => acc
        | some result =>
          { all_results := acc.all_results ++ [(p.1, result)]
            all_kpis := acc.all_kpis ++ [(p.1, result.kpis)]
            all_charts := acc.all_charts ++ [(p.1, result.charts_data)]
            enabled_domains := acc.enabled_domains ++ [p.1] }

/-- Look a category up in the output of `categorize_insights`
(`categorized.get(cat, [])`). -/
def catGet (categorized : List (InsightCategory × List Insight)) (c : InsightCategory) :
    List Insight :=
  match categorized.find? (fun p => p.1 == c) with
  | some p => p.2
  | none => []

/-- `insights_by_category`: one entry per enabled domain name, in the fixed
financial / manufacturing / inventory / sales / purchase order. -/
def buildInsightsByCategory (enabled : List String)
    (categorized : List (InsightCategory × List Insight)) : List (String × List Insight) :=
  (if enabled.contains "financial" then [("financial", catGet categorized .financial)] else []) ++
  (if enabled.contains "manufacturing" then
    [("manufacturing", catGet categorized .manufacturing)] else []) ++
  (if enabled.contains "inventory" then [("inventory", catGet categorized .inventory)] else []) ++
  (if enabled.contains "sales" then [("sales", catGet categorized .sales)] else []) ++
  (if enabled.contains "purchase" then [("purchase", catGet categorized .purchase)] else [])

/-- `ERPAgentOrchestrator.analyze_multi_file`.  A `none` result models an
uncaught exception: when any cross-domain insight is generated, the source
passes those plain dicts into `generate_recommendations`, whose attribute
access `insight.severity` raises `AttributeError` outside every handler.
The executive summary receives the per-domain (nested) KPI map, whose keys
can never equal the five flat KPI names it probes; only its key set matters,
so the nested values are coerced. -/
def analyze_multi_file (analyzers : ERP.DataType → Df → Option AnalysisResultM)
    (data_frames : List (String × Df)) (analysis_level : String := "Comprehensive") :
    Option MultiFileResult :=
  let acc := data_frames.foldl (domainStep analyzers) ⟨[], [], [], []⟩
  if acc.enabled_domains.isEmpty then some (emptyMultiFileResult analysis_level)
  else
    let insights := InsightEngine.generate_insights acc.all_results
    let categorized := InsightEngine.categorize_insights insights
    let cross := if acc.enabled_domains.length > 1 then
        _generate_cross_domain_insights insights
      else []
    if !cross.isEmpty then none
    else
      let recommendations := RecommendationEngine.generate_recommendations insights
      let risks := RiskEngine.identify_risks acc.all_results insights
      let exec_summary := InsightEngine.generate_executive_summary insights
        (acc.all_kpis.map (fun p => (p.1, (0 : ℚ))))
      some
        { data_types := acc.enabled_domains
          enabled_domains := acc.enabled_domains
          executive_summary := exec_summary
          kpis := acc.all_kpis
          insights_by_category := buildInsightsByCategory acc.enabled_domains categorized
          cross_domain_insights := cross
          critical_risks := risks
          action_plan := recommendations
          charts_data := acc.all_charts
          total_insights := insights.length + cross.length
          critical_count := (risks.filter (fun r => r.severity.value == "critical")).length
          analysis_mode := "multi_file_" ++ pyLower analysis_level
          files_analyzed := acc.enabled_domains.length }

end Orchestrator

/-! ## Supporting lemmas -/

/-- Rounding to two decimals keeps values at least one half at least one half. -/
theorem half_le_round2 {q : ℚ} (h : 1 / 2 ≤ q) : 1 / 2 ≤ round2 q := by
  have h100 : (50 : ℚ) ≤ q * 100 := by linarith
  have hf : (50 : ℤ) ≤ ⌊q * 100⌋ := Int.le_floor.mpr (by push_cast; linarith)
  unfold round2
  have hr : (50 : ℤ) ≤
      (if q * 100 - ⌊q * 100⌋ < 1 / 2 then ⌊q * 100⌋
       else if q * 100 - ⌊q * 100⌋ > 1 / 2 then ⌊q * 100⌋ + 1
       else if ⌊q * 100⌋ % 2 = 0 then ⌊q * 100⌋
       else ⌊q * 100⌋ + 1) := by
    split_ifs <;> omega
  calc (1 : ℚ) / 2 = 50 / 100 := by norm_num
  _ ≤ _ := by
    apply div_le_div_of_nonneg_right ?_ (by norm_num)
    exact_mod_cast hr

/-- The `required_confidence` computed by `create_schema_match` is
non-negative. -/
theorem requiredConfidence_nonneg (df : Df) (dt : ERP.DataType) :
    0 ≤ SchemaDetector.requiredConfidence df dt := by
  unfold SchemaDetector.requiredConfidence
  dsimp only
  split_ifs <;> positivity

/-- For a known data type, `create_schema_match` computes its confidence by
the `0.5 + 0.5 · required_confidence` formula. -/
theorem confidence_formula (df : Df) (dt : ERP.DataType) (h : dt ≠ .unknown) :
    (SchemaDetector.create_schema_match df dt).confidence =
      round2 (min (1 / 2 + SchemaDetector.requiredConfidence df dt * (1 / 2)) 1) := by
  unfold SchemaDetector.create_schema_match
  rw [if_neg h]

/-- Schema confidence of any known data type is at least `0.5`. -/
theorem confidence_ge_half (df : Df) (dt : ERP.DataType) (h : dt ≠ .unknown) :
    1 / 2 ≤ (SchemaDetector.create_schema_match df dt).confidence := by
  rw [confidence_formula df dt h]
  apply half_le_round2
  have h0 := requiredConfidence_nonneg df dt
  apply le_min (by linarith) (by norm_num)

/-- `dt_map` only produces known data types. -/
theorem dtMap_ne_unknown {s : String} {dt : ERP.DataType}
    (h : Orchestrator.dtMap s = some dt) : dt ≠ .unknown := by
  unfold Orchestrator.dtMap at h
  split_ifs at h <;> simp_all <;> subst h <;> decide

/-- The per-domain loop body only ever appends to `enabled_domains`. -/
theorem domainStep_enabled_mono (analyzers : ERP.DataType → Df → Option AnalysisResultM)
    (acc : Orchestrator.LoopAcc) (p : String × Df) :
    acc.enabled_domains ⊆ (Orchestrator.domainStep analyzers acc p).enabled_domains := by
  unfold Orchestrator.domainStep
  cases hdt : Orchestrator.dtMap (pyLower p.1) with
  | none => exact fun x hx => hx
  | some dt =>
    dsimp only
    split_ifs
    · exact fun x hx => hx
    · exact fun x hx => hx
    · cases hAn : analyzers dt (SchemaDetector.normalize_columns p.2 dt) with
      | none => exact fun x hx => hx
      | some r => exact fun x hx => List.mem_append_left _ hx

/-- The loop of `analyze_multi_file` only ever appends to `enabled_domains`. -/
theorem foldl_enabled_mono (analyzers : ERP.DataType → Df → Option AnalysisResultM)
    (l : List (String × Df)) (acc : Orchestrator.LoopAcc) :
    acc.enabled_domains ⊆
      (l.foldl (Orchestrator.domainStep analyzers) acc).enabled_domains := by
  induction l generalizing acc with
  | nil => exact fun x hx => hx
  | cons p t ih => exact fun x hx => ih _ (domainStep_enabled_mono analyzers acc p hx)

/-- A supplied domain that is recognized, passes the required-field gate and
whose analyzer succeeds ends up enabled (the confidence branch can never
reject it). -/
theorem pass_in_enabled (analyzers : ERP.DataType → Df → Option AnalysisResultM)
    (frames : List (String × Df)) (d : String) (df : Df) (dt : ERP.DataType)
    (res : AnalysisResultM) (hmem : (d, df) ∈ frames)
    (hdt : Orchestrator.dtMap (pyLower d) = some dt)
    (hratio : ¬ Orchestrator.requiredRatio df dt < 1 / 2)
    (han : analyzers dt (SchemaDetector.normalize_columns df dt) = some res)
    (acc : Orchestrator.LoopAcc) :
    d ∈ (frames.foldl (Orchestrator.domainStep analyzers) acc).enabled_domains := by
  induction frames generalizing acc with
  | nil => cases hmem
  | cons p t ih =>
    rcases List.mem_cons.mp hmem with heq | htail
    · subst heq
      rw [List.foldl_cons]
      apply foldl_enabled_mono
      unfold Orchestrator.domainStep
      dsimp only
      rw [hdt]
      dsimp only
      rw [if_neg (not_lt.mpr (confidence_ge_half df dt (dtMap_ne_unknown hdt))),
        if_neg hratio, han]
      exact List.mem_append_right _ (List.mem_singleton.mpr rfl)
    · exact ih htail _

/-! ## Claim C6 -/

/-- The claim's priority mapping (CRITICAL→IMMEDIATE, HIGH/MEDIUM→SHORT_TERM,
LOW→MEDIUM_TERM). -/
def claimPriority : Severity → Priority
  | .critical => .immediate
  | .high => .short_term
  | .medium => .short_term
  | .low => .medium_term

/-- The claim's "timeline mirrors the priority" mapping. -/
def mirrorTimeline : Priority → TimeHorizon
  | .immediate => .immediate
  | .short_term => .short_term
  | .medium_term => .medium_term

/-- The timeline the code actually assigns (amended claim): a HIGH insight
gets the IMMEDIATE `0-30 days` window although its priority is SHORT_TERM. -/
def claimTimelineAmended : Severity → TimeHorizon
  | .critical => .immediate
  | .high => .immediate
  | .medium => .short_term
  | .low => .medium_term

/-- Claim C6, counterexample: for a single HIGH-severity insight the produced
recommendation has priority SHORT_TERM but timeline `0-30 days`, not the
`1-3 months` the mirror mapping demands. -/
theorem claim_C6_counterexample :
    (RecommendationEngine.generate_recommendations
        [{ category := .financial, severity := .high, finding := "f", impact := "i",
           action := "a", metrics := [] }]).map
        (fun r => (r.priority, r.timeline)) = [(.short_term, .immediate)] ∧
    (mirrorTimeline .short_term).value = "1-3 months" ∧
    TimeHorizon.immediate.value = "0-30 days" ∧
    TimeHorizon.immediate ≠ TimeHorizon.short_term :=
  ⟨rfl, rfl, rfl, by decide⟩

/-- Claim C6 (amended): `generate_recommendations` returns exactly one
recommendation per insight (1:1, no merging), with priority mapped
CRITICAL→IMMEDIATE, HIGH→SHORT_TERM, MEDIUM→SHORT_TERM, LOW→MEDIUM_TERM and
timeline mapped CRITICAL→0-30 days, HIGH→0-30 days, MEDIUM→1-3 months,
LOW→3-6 months (the HIGH timeline does not mirror the priority). -/
theorem claim_C6_theorem (insights : List Insight) :
    (RecommendationEngine.generate_recommendations insights).map
        (fun r => (r.priority, r.timeline)) =
      insights.map (fun i => (claimPriority i.severity, claimTimelineAmended i.severity)) := by
  induction insights with
  | nil => rfl
  | cons a t ih =>
    have hhead :
        RecommendationEngine.generate_recommendations (a :: t) =
          ((RecommendationEngine._create_recommendation a).getD
            { title := "", what := "", why := "", how := "", impact := "",
              priority := .immediate, timeline := .immediate }) ::
            RecommendationEngine.generate_recommendations t := rfl
    rw [hhead, List.map_cons, List.map_cons, ih]
    refine congrArg (· :: _) ?_
    cases a with
    | mk cat sev f i act m =>
      cases sev <;> rfl

/-! ## Claim C10 -/

/-- Claim C10 (confirmed): for every record set and non-UNKNOWN data type
`create_schema_match` returns confidence at least `0.5`; hence in
`analyze_multi_file` the `confidence < 0.5` rejection branch is never taken
for a recognized domain key, and a recognized domain passing the
required-fields check whose analyzer succeeds is always enabled - the only
effective gates are the required-fields ratio and analyzer exceptions. -/
theorem claim_C10_theorem :
    (∀ (df : Df) (dt : ERP.DataType), dt ≠ .unknown →
        1 / 2 ≤ (SchemaDetector.create_schema_match df dt).confidence) ∧
    (∀ (d : String) (df : Df) (dt : ERP.DataType),
        Orchestrator.dtMap (pyLower d) = some dt →
        ¬ (SchemaDetector.create_schema_match df dt).confidence < 1 / 2) ∧
    (∀ (analyzers : ERP.DataType → Df → Option AnalysisResultM)
        (frames : List (String × Df)) (d : String) (df : Df) (dt : ERP.DataType)
        (res : AnalysisResultM),
        (d, df) ∈ frames →
        Orchestrator.dtMap (pyLower d) = some dt →
        ¬ Orchestrator.requiredRatio df dt < 1 / 2 →
        analyzers dt (SchemaDetector.normalize_columns df dt) = some res →
        d ∈ (frames.foldl (Orchestrator.domainStep analyzers)
              ⟨[], [], [], []⟩).enabled_domains) :=
  ⟨confidence_ge_half,
   fun _d df dt hdt => not_lt.mpr (confidence_ge_half df dt (dtMap_ne_unknown hdt)),
   fun analyzers frames d df dt res hmem hdt hratio han =>
     pass_in_enabled analyzers frames d df dt res hmem hdt hratio han _⟩

unseal Rat.mul Rat.inv Rat.add Rat.sub in
/-- Claim C10, witness: a concrete financial frame with `revenue` and
`period` columns passes every gate and is enabled. -/
theorem claim_C10_witness :
    1 / 2 ≤ (SchemaDetector.create_schema_match ⟨[⟨"stuff", .obj, []⟩]⟩ .financial).confidence ∧
    "financial" ∈
      (([("financial",
          (⟨[⟨"revenue", .obj, [.num 5]⟩, ⟨"period", .obj, [.str "2024-01-01"]⟩]⟩ : Df))]).foldl
        (Orchestrator.domainStep (fun _ _ => some ⟨[], [], []⟩))
        ⟨[], [], [], []⟩).enabled_domains :=
  ⟨claim_C10_theorem.1 _ _ (by decide),
   claim_C10_theorem.2.2 (fun _ _ => some ⟨[], [], []⟩) _ "financial"
     (⟨[⟨"revenue", .obj, [.num 5]⟩, ⟨"period", .obj, [.str "2024-01-01"]⟩]⟩ : Df)
     .financial ⟨[], [], []⟩ (by decide) (by decide) (by decide) rfl⟩

/-! ## Claim C3 -/

/-- Does the orchestrator gate reject this frame?  (Unrecognized domain keys
are skipped outright; recognized ones are rejected when confidence or the
required-field ratio is below one half.) -/
def frameRejected (p : String × Df) : Bool :=
  match Orchestrator.dtMap (pyLower p.1) with
  | none => true
  | some dt =>
    decide ((SchemaDetector.create_schema_match p.2 dt).confidence < 1 / 2) ||
      decide (Orchestrator.requiredRatio p.2 dt < 1 / 2)

/-- A rejected frame leaves the loop accumulator unchanged. -/
theorem domainStep_rejected (analyzers : ERP.DataType → Df → Option AnalysisResultM)
    (acc : Orchestrator.LoopAcc) (p : String × Df) (h : frameRejected p = true) :
    Orchestrator.domainStep analyzers acc p = acc := by
  unfold frameRejected at h
  unfold Orchestrator.domainStep
  cases hdt : Orchestrator.dtMap (pyLower p.1) with
  | none => rfl
  | some dt =>
    rw [hdt] at h
    dsimp only at h ⊢
    rcases Bool.or_eq_true_iff.mp h with h1 | h1
    · rw [if_pos (of_decide_eq_true h1)]
    · by_cases hc : (SchemaDetector.create_schema_match p.2 dt).confidence < 1 / 2
      · rw [if_pos hc]
      · rw [if_neg hc, if_pos (of_decide_eq_true h1)]

/-- Claim C3 (confirmed): `analyze_multi_file` on an empty map, or on a map
in which every supplied domain is rejected by the gate, returns (rather than
raising) the explicit empty result: `enabled_domains = []`,
`total_insights = 0`, `critical_count = 0` and the non-empty explanatory
executive summary. -/
theorem claim_C3_theorem (analyzers : ERP.DataType → Df → Option AnalysisResultM)
    (frames : List (String × Df)) (level : String)
    (h : ∀ p ∈ frames, frameRejected p = true) :
    Orchestrator.analyze_multi_file analyzers frames level =
      some (Orchestrator.emptyMultiFileResult level) ∧
    (Orchestrator.emptyMultiFileResult level).enabled_domains = [] ∧
    (Orchestrator.emptyMultiFileResult level).total_insights = 0 ∧
    (Orchestrator.emptyMultiFileResult level).critical_count = 0 ∧
    (Orchestrator.emptyMultiFileResult level).executive_summary =
      ["No valid data detected. Please upload files with required columns."] := by
  have hfold : frames.foldl (Orchestrator.domainStep analyzers) ⟨[], [], [], []⟩ =
      ⟨[], [], [], []⟩ := by
    have key : ∀ (l : List (String × Df)) (acc : Orchestrator.LoopAcc),
        (∀ p ∈ l, frameRejected p = true) →
        l.foldl (Orchestrator.domainStep analyzers) acc = acc := by
      intro l
      induction l with
      | nil => intro acc _; rfl
      | cons p t ih =>
        intro acc hl
        rw [List.foldl_cons, domainStep_rejected analyzers acc p (hl p (List.mem_cons_self p t))]
        exact ih acc (fun q hq => hl q (List.mem_cons_of_mem p hq))
    exact key frames _ h
  refine ⟨?_, rfl, rfl, rfl, rfl⟩
  unfold Orchestrator.analyze_multi_file
  rw [hfold]
  rfl

unseal Rat.mul Rat.inv Rat.add Rat.sub in
/-- Claim C3, witness: one frame whose columns match nothing is rejected and
the empty result is returned. -/
theorem claim_C3_witness :
    Orchestrator.analyze_multi_file (fun _ _ => some ⟨[], [], []⟩)
        [("financial", (⟨[⟨"zzz", .obj, []⟩]⟩ : Df))] "Summary" =
      some (Orchestrator.emptyMultiFileResult "Summary") :=
  (claim_C3_theorem (fun _ _ => some ⟨[], [], []⟩)
    [("financial", (⟨[⟨"zzz", .obj, []⟩]⟩ : Df))] "Summary" (by decide)).1

/-! ## Claim C1 -/

/-- A supplied domain passes the whole per-domain pipeline: recognized key,
both gate checks, and a successful analyzer run. -/
def domainPasses (analyzers : ERP.DataType → Df → Option AnalysisResultM)
    (d : String) (df : Df) : Prop :=
  ∃ dt res, Orchestrator.dtMap (pyLower d) = some dt ∧
    ¬ (SchemaDetector.create_schema_match df dt).confidence < 1 / 2 ∧
    ¬ Orchestrator.requiredRatio df dt < 1 / 2 ∧
    analyzers dt (SchemaDetector.normalize_columns df dt) = some res

/-- Membership in `enabled_domains` after one loop step. -/
theorem mem_enabled_step (analyzers : ERP.DataType → Df → Option AnalysisResultM)
    (acc : Orchestrator.LoopAcc) (p : String × Df) (d : String)
    (h : d ∈ (Orchestrator.domainStep analyzers acc p).enabled_domains) :
    d ∈ acc.enabled_domains ∨ (d = p.1 ∧ domainPasses analyzers p.1 p.2) := by
  unfold Orchestrator.domainStep at h
  revert h
  cases hdt : Orchestrator.dtMap (pyLower p.1) with
  | none => exact fun h => .inl h
  | some dt =>
    dsimp only
    split_ifs with h1 h2
    · exact fun h => .inl h
    · exact fun h => .inl h
    · cases han : analyzers dt (SchemaDetector.normalize_columns p.2 dt) with
      | none => exact fun h => .inl h
      | some res =>
        intro h
        rcases List.mem_append.mp h with hl | hr
        · exact .inl hl
        · refine .inr ⟨List.mem_singleton.mp hr, dt, res, hdt, h1, h2, han⟩

/-- Membership in `enabled_domains` after the whole loop. -/
theorem mem_enabled_foldl (analyzers : ERP.DataType → Df → Option AnalysisResultM)
    (l : List (String × Df)) (acc : Orchestrator.LoopAcc) (d : String)
    (h : d ∈ (l.foldl (Orchestrator.domainStep analyzers) acc).enabled_domains) :
    d ∈ acc.enabled_domains ∨ ∃ df, (d, df) ∈ l ∧ domainPasses analyzers d df := by
  induction l generalizing acc with
  | nil => exact .inl h
  | cons p t ih =>
    rw [List.foldl_cons] at h
    rcases ih _ h with hstep | ⟨df, hmem, hp⟩
    · rcases mem_enabled_step analyzers acc p d hstep with hacc | ⟨rfl, hp⟩
      · exact .inl hacc
      · exact .inr ⟨p.2, List.mem_cons_self p t, hp⟩
    · exact .inr ⟨df, List.mem_cons_of_mem p hmem, hp⟩

/-- Keys of an appended association list. -/
theorem akeys_append (l₁ l₂ : List (String × α)) :
    akeys (l₁ ++ l₂) = akeys l₁ ++ akeys l₂ :=
  List.map_append Prod.fst l₁ l₂

/-- One loop step keeps the kpi / chart / result maps keyed exactly by
`enabled_domains`. -/
theorem domainStep_keys (analyzers : ERP.DataType → Df → Option AnalysisResultM)
    (acc : Orchestrator.LoopAcc) (p : String × Df)
    (h1 : akeys acc.all_kpis = acc.enabled_domains)
    (h2 : akeys acc.all_charts = acc.enabled_domains)
    (h3 : akeys acc.all_results = acc.enabled_domains) :
    akeys (Orchestrator.domainStep analyzers acc p).all_kpis =
        (Orchestrator.domainStep analyzers acc p).enabled_domains ∧
      akeys (Orchestrator.domainStep analyzers acc p).all_charts =
        (Orchestrator.domainStep analyzers acc p).enabled_domains ∧
      akeys (Orchestrator.domainStep analyzers acc p).all_results =
        (Orchestrator.domainStep analyzers acc p).enabled_domains := by
  unfold Orchestrator.domainStep
  cases hdt : Orchestrator.dtMap (pyLower p.1) with
  | none => exact ⟨h1, h2, h3⟩
  | some dt =>
    dsimp only
    split_ifs
    · exact ⟨h1, h2, h3⟩
    · exact ⟨h1, h2, h3⟩
    · cases han : analyzers dt (SchemaDetector.normalize_columns p.2 dt) with
      | none => exact ⟨h1, h2, h3⟩
      | some res =>
        refine ⟨?_, ?_, ?_⟩ <;> simp only [akeys] at h1 h2 h3 ⊢ <;>
          simp [h1, h2, h3]

/-- After the whole loop the kpi / chart / result maps are keyed exactly by
`enabled_domains`. -/
theorem foldl_keys (analyzers : ERP.DataType → Df → Option AnalysisResultM)
    (l : List (String × Df)) (acc : Orchestrator.LoopAcc)
    (h1 : akeys acc.all_kpis = acc.enabled_domains)
    (h2 : akeys acc.all_charts = acc.enabled_domains)
    (h3 : akeys acc.all_results = acc.enabled_domains) :
    akeys (l.foldl (Orchestrator.domainStep analyzers) acc).all_kpis =
        (l.foldl (Orchestrator.domainStep analyzers) acc).enabled_domains ∧
      akeys (l.foldl (Orchestrator.domainStep analyzers) acc).all_charts =
        (l.foldl (Orchestrator.domainStep analyzers) acc).enabled_domains ∧
      akeys (l.foldl (Orchestrator.domainStep analyzers) acc).all_results =
        (l.foldl (Orchestrator.domainStep analyzers) acc).enabled_domains := by
  induction l generalizing acc with
  | nil => exact ⟨h1, h2, h3⟩
  | cons p t ih =>
    rw [List.foldl_cons]
    obtain ⟨g1, g2, g3⟩ := domainStep_keys analyzers acc p h1 h2 h3
    exact ih _ g1 g2 g3

/-- A key absent from an association list's key set looks up to `none`. -/
theorem alookup_eq_none {l : List (String × α)} {k : String} (h : k ∉ akeys l) :
    alookup l k = none := by
  induction l with
  | nil => rfl
  | cons p t ih =>
    unfold alookup
    have hk : p.1 ≠ k := by
      intro he
      exact h (by simp [akeys, he])
    rw [if_neg hk]
    exact ih (fun hm => h (by simp [akeys] at hm ⊢; exact .inr hm))

/-- With duplicate-free keys (a Python dict) the binding of a key is unique. -/
theorem nodup_key_unique {l : List (String × α)} (h : (l.map Prod.fst).Nodup)
    {d : String} {a b : α} (ha : (d, a) ∈ l) (hb : (d, b) ∈ l) : a = b := by
  induction l with
  | nil => cases ha
  | cons p t ih =>
    have hhead := (List.nodup_cons.mp h).1
    have htail := (List.nodup_cons.mp h).2
    rcases List.mem_cons.mp ha with rfl | ha2
    · rcases List.mem_cons.mp hb with heq | hb2
      · exact congrArg Prod.snd heq.symm
      · exact absurd (List.mem_map_of_mem Prod.fst hb2) hhead
    · rcases List.mem_cons.mp hb with rfl | hb2
      · exact absurd (List.mem_map_of_mem Prod.fst ha2) hhead
      · exact ih htail ha2 hb2

/-- `insights_by_category` is keyed only by enabled domains. -/
theorem ibc_keys_subset (enabled : List String)
    (categorized : List (InsightCategory × List Insight)) :
    ∀ d ∈ akeys (Orchestrator.buildInsightsByCategory enabled categorized),
      d ∈ enabled := by
  intro d hd
  unfold Orchestrator.buildInsightsByCategory at hd
  simp only [akeys_append, List.mem_append] at hd
  rcases hd with ((((h | h) | h) | h) | h) <;>
    · revert h
      split_ifs with hc
      · intro h
        simp only [akeys, List.map_cons, List.map_nil, List.mem_singleton] at h
        subst h
        simpa using hc
      · intro h
        cases h

/-- Claim C1 (confirmed): whenever `analyze_multi_file` returns a result,
a supplied domain that fails the gate (schema confidence below `0.5` or
fewer than half of the required fields matched) never appears in
`enabled_domains`, in `kpis`, in `insights_by_category` or in `charts_data`;
the kpi and chart maps are keyed exactly by the enabled domains, the
insight map only by enabled domains, and every enabled domain is a supplied
domain that passed the gate. -/
theorem claim_C1_theorem (analyzers : ERP.DataType → Df → Option AnalysisResultM)
    (frames : List (String × Df)) (level : String) (r : Orchestrator.MultiFileResult)
    (hnd : (frames.map Prod.fst).Nodup)
    (hres : Orchestrator.analyze_multi_file analyzers frames level = some r) :
    (∀ d df dt, (d, df) ∈ frames → Orchestrator.dtMap (pyLower d) = some dt →
        ((SchemaDetector.create_schema_match df dt).confidence < 1 / 2 ∨
          Orchestrator.requiredRatio df dt < 1 / 2) →
        d ∉ r.enabled_domains ∧ alookup r.kpis d = none ∧
          alookup r.insights_by_category d = none ∧ alookup r.charts_data d = none) ∧
    (akeys r.kpis = r.enabled_domains ∧ akeys r.charts_data = r.enabled_domains ∧
      ∀ d ∈ akeys r.insights_by_category, d ∈ r.enabled_domains) ∧
    (∀ d ∈ r.enabled_domains, ∃ df, (d, df) ∈ frames ∧ domainPasses analyzers d df) := by
  simp only [Orchestrator.analyze_multi_file] at hres
  by_cases he :
      (frames.foldl (Orchestrator.domainStep analyzers)
        ⟨[], [], [], []⟩).enabled_domains.isEmpty = true
  · rw [if_pos he] at hres
    injection hres with hr
    subst hr
    refine ⟨fun d df dt _ _ _ => ⟨?_, rfl, rfl, rfl⟩, ⟨rfl, rfl, ?_⟩, ?_⟩
    · intro hmem
      cases hmem
    · intro d hd
      cases hd
    · intro d hd
      cases hd
  · rw [if_neg he] at hres
    set acc := frames.foldl (Orchestrator.domainStep analyzers) ⟨[], [], [], []⟩ with hacc
    by_cases hcross :
        ((if acc.enabled_domains.length > 1 then
            Orchestrator._generate_cross_domain_insights
              (InsightEngine.generate_insights acc.all_results)
          else []).isEmpty) = true
    case neg =>
      rw [Bool.not_eq_true] at hcross
      rw [if_pos (by simp [hcross])] at hres
      cases hres
    case pos =>
      rw [if_neg (by simp [hcross])] at hres
      injection hres with hr
      have hkeys := foldl_keys analyzers frames ⟨[], [], [], []⟩ rfl rfl rfl
      have henabled : r.enabled_domains = acc.enabled_domains := by rw [← hr]
      have hkpis : r.kpis = acc.all_kpis := by rw [← hr]
      have hcharts : r.charts_data = acc.all_charts := by rw [← hr]
      have hibc : r.insights_by_category =
          Orchestrator.buildInsightsByCategory acc.enabled_domains
            (InsightEngine.categorize_insights
              (InsightEngine.generate_insights acc.all_results)) := by rw [← hr]
      have hnotin : ∀ d df dt, (d, df) ∈ frames →
          Orchestrator.dtMap (pyLower d) = some dt →
          ((SchemaDetector.create_schema_match df dt).confidence < 1 / 2 ∨
            Orchestrator.requiredRatio df dt < 1 / 2) →
          d ∉ acc.enabled_domains := by
        intro d df dt hmem hdt hgate hd
        rcases mem_enabled_foldl analyzers frames _ d (hacc ▸ hd) with h0 | ⟨df₂, hmem₂, hp⟩
        · cases h0
        · obtain ⟨dt₂, res₂, hdt₂, hconf₂, hratio₂, _⟩ := hp
          have hdf : df₂ = df := nodup_key_unique hnd hmem₂ hmem
          subst hdf
          rw [hdt] at hdt₂
          injection hdt₂ with hdteq
          subst hdteq
          rcases hgate with hg | hg
          · exact hconf₂ hg
          · exact hratio₂ hg
      refine ⟨fun d df dt hmem hdt hgate => ?_, ⟨?_, ?_, ?_⟩, ?_⟩
      · have hd := hnotin d df dt hmem hdt hgate
        refine ⟨henabled ▸ hd, ?_, ?_, ?_⟩
        · exact hkpis ▸ alookup_eq_none (fun hk => hd (hkeys.1 ▸ hk))
        · refine hibc ▸ alookup_eq_none (fun hk => hd ?_)
          exact ibc_keys_subset acc.enabled_domains _ d hk
        · exact hcharts ▸ alookup_eq_none (fun hk => hd (hkeys.2.1 ▸ hk))
      · rw [hkpis, henabled]
        exact hkeys.1
      · rw [hcharts, henabled]
        exact hkeys.2.1
      · rw [hibc, henabled]
        exact ibc_keys_subset acc.enabled_domains _
      · rw [henabled]
        intro d hd
        rcases mem_enabled_foldl analyzers frames _ d (hacc ▸ hd) with h0 | hp
        · cases h0
        · exact hp

/-- Concrete frames for the C1 witness: a passing financial frame and an
inventory frame that fails the required-field gate. -/
def c1frames : List (String × Df) :=
  [("financial", ⟨[⟨"revenue", .obj, []⟩, ⟨"period", .obj, []⟩]⟩),
   ("inventory", ⟨[⟨"stock", .obj, []⟩]⟩)]

/-- The result `analyze_multi_file` produces on `c1frames` with an analyzer
that returns an empty `AnalysisResult`. -/
def c1result : Orchestrator.MultiFileResult :=
  { data_types := ["financial"]
    enabled_domains := ["financial"]
    executive_summary := []
    kpis := [("financial", [])]
    insights_by_category := [("financial", [])]
    cross_domain_insights := []
    critical_risks := []
    action_plan := []
    charts_data := [("financial", [])]
    total_insights := 0
    critical_count := 0
    analysis_mode := "multi_file_summary"
    files_analyzed := 1 }

unseal Rat.mul Rat.inv Rat.add Rat.sub in
/-- Claim C1, witness: on `c1frames` the gate-failing `inventory` domain is
absent from `enabled_domains` and from every output map. -/
theorem claim_C1_witness :
    "inventory" ∉ c1result.enabled_domains ∧
      alookup c1result.kpis "inventory" = none ∧
      alookup c1result.insights_by_category "inventory" = none ∧
      alookup c1result.charts_data "inventory" = none :=
  (claim_C1_theorem (fun _ _ => some ⟨[], [], []⟩) c1frames "Summary" c1result
      (by decide) (by decide)).1 "inventory" ⟨[⟨"stock", .obj, []⟩]⟩ .inventory
    (by decide) (by decide) (.inr (by decide))

/-! ## Claim C4 -/

/-- Maximum of a list of naturals continued from `a` (Python `max`). -/
theorem foldl_max_attained (l : List ℕ) (a : ℕ) :
    l.foldl max a = a ∨ l.foldl max a ∈ l := by
  induction l generalizing a with
  | nil => exact .inl rfl
  | cons b t ih =>
    rw [List.foldl_cons]
    rcases ih (max a b) with h | h
    · rcases max_choice a b with hm | hm
      · exact .inl (by rw [h, hm])
      · exact .inr (by rw [h, hm]; exact List.mem_cons_self b t)
    · exact .inr (List.mem_cons_of_mem b h)

/-- A fold of `max` over an all-zero list from `0` is `0`. -/
theorem foldl_max_zero (l : List ℕ) (h : ∀ x ∈ l, x = 0) : l.foldl max 0 = 0 := by
  induction l with
  | nil => rfl
  | cons b t ih =>
    rw [List.foldl_cons, h b (List.mem_cons_self b t), max_self]
    exact ih (fun x hx => h x (List.mem_cons_of_mem b hx))

/-- Python `str()` of a scalar cell as it appears inside a rendered value
list (strings are repr-quoted; numeric formatting approximated). -/
def strOfCell : Cell → String
  | .na => "nan"
  | .str s => "'" ++ s ++ "'"
  | .num q => fmtNum q
  | .date t => fmtNum t

/-- Join strings with a separator. -/
def joinSep (sep : String) : List String → String
  | [] => ""
  | [x] => x
  | x :: xs => x ++ sep ++ joinSep sep xs

/-- Modelled from the claim: the lowered rendering
`str(df[col].dropna().head(10).tolist())` scanned for keywords. -/
def colValuesStr (c : Col) : String :=
  pyLower
    ("[" ++ joinSep ", " (((c.cells.filter (fun x => x != Cell.na)).take 10).map strOfCell) ++
      "]")

/-- Modelled from the claim: score = count of column names containing any
keyword of the type, plus one half per keyword found in the first ten values
of each column. -/
def claimC4Score (df : Df) (dt : ERP.DataType) : ℚ :=
  ((df.names.map SchemaDetector.normColName).countP
      (fun col => (SchemaDetector.TYPE_KEYWORDS dt).any (fun kw => strContains col kw)) : ℚ) +
    1 / 2 *
      ((df.cols.map (fun c =>
          ((SchemaDetector.TYPE_KEYWORDS dt).filter
            (fun kw => strContains (colValuesStr c) kw)).length)).sum : ℚ)

/-- Modelled from the claim: confidence
`min(max_score / max(3, 0.5 * column_count), 1.0)` over the claimed scores. -/
def claimC4Confidence (df : Df) : ℚ :=
  min (((SchemaDetector.nonUnknownTypes.map (claimC4Score df)).foldl max 0) /
      max 3 ((df.names.length : ℚ) * (1 / 2))) 1

unseal Rat.mul Rat.inv Rat.add Rat.sub in
/-- Claim C4, counterexample: on a single column `net_income` with no rows
the code counts two (column, keyword) pairs (`net` and `income`), not one
keyword-containing column, and returns confidence `round(min(2/3, 1), 2) =
0.67`, while the claim's formula yields `1/3`; the rounding alone already
contradicts the claimed exact equality. -/
theorem claim_C4_counterexample :
    SchemaDetector.detect_with_confidence ⟨[⟨"net_income", .obj, []⟩]⟩ =
      (.financial, 67 / 100) ∧
    SchemaDetector.typeScore ["net_income"] .financial = 2 ∧
    claimC4Score ⟨[⟨"net_income", .obj, []⟩]⟩ .financial = 1 ∧
    claimC4Confidence ⟨[⟨"net_income", .obj, []⟩]⟩ = 1 / 3 ∧
    (67 : ℚ) / 100 ≠ 1 / 3 :=
  ⟨by decide, by decide, by decide, by decide, by decide⟩

/-- The maximal pair-count score over the five candidate types. -/
def maxScore (df : Df) : ℕ :=
  (SchemaDetector.nonUnknownTypes.map
    (SchemaDetector.typeScore (df.names.map SchemaDetector.normColName))).foldl max 0

/-- The (amended) confidence formula of `detect_with_confidence`. -/
def codeC4Confidence (df : Df) : ℚ :=
  round2 (min ((maxScore df : ℚ) / max 3 ((df.names.length : ℚ) * (1 / 2))) 1)

/-- Claim C4 (amended): `detect_with_confidence` scores column names only
(no value-content term), counting one point per (column, keyword) pair whose
keyword is a substring of the normalized column name; the earliest type in
enum declaration order among the maximal scorers wins; the returned
confidence is `round(min(max_score / max(3, 0.5 * column_count), 1.0), 2)`;
and the result is `(UNKNOWN, 0.0)` when there are no columns or no keyword
matches. -/
theorem claim_C4_theorem (df : Df) :
    (df.names = [] → SchemaDetector.detect_with_confidence df = (.unknown, 0)) ∧
    ((∀ dt ∈ SchemaDetector.nonUnknownTypes,
        SchemaDetector.typeScore (df.names.map SchemaDetector.normColName) dt = 0) →
      SchemaDetector.detect_with_confidence df = (.unknown, 0)) ∧
    (df.names ≠ [] → maxScore df ≠ 0 →
      ∃ dt, dt ∈ SchemaDetector.nonUnknownTypes ∧
        SchemaDetector.detect_with_confidence df = (dt, codeC4Confidence df) ∧
        SchemaDetector.typeScore (df.names.map SchemaDetector.normColName) dt = maxScore df ∧
        ∀ dt₂ ∈ SchemaDetector.nonUnknownTypes,
          SchemaDetector.typeScore (df.names.map SchemaDetector.normColName) dt₂ =
            maxScore df →
          SchemaDetector.nonUnknownTypes.indexOf dt ≤
            SchemaDetector.nonUnknownTypes.indexOf dt₂) := by
  set cols := df.names.map SchemaDetector.normColName with hcols
  refine ⟨?_, ?_, ?_⟩
  · intro h
    have hc : cols.length = 0 := by rw [hcols, h]; rfl
    unfold SchemaDetector.detect_with_confidence
    rw [← hcols, if_pos hc]
  · intro h
    unfold SchemaDetector.detect_with_confidence
    rw [← hcols]
    have hM0 : ((SchemaDetector.nonUnknownTypes.map
        (fun dt => (dt, SchemaDetector.typeScore cols dt))).map Prod.snd).foldl max 0 = 0 := by
      apply foldl_max_zero
      intro x hx
      simp only [List.map_map, List.mem_map] at hx
      obtain ⟨dt, hdt, hxe⟩ := hx
      rw [← hxe]
      exact h dt hdt
    by_cases hc : cols.length = 0
    · rw [if_pos hc]
    · rw [if_neg hc]
      dsimp only
      rw [hM0]
      rfl
  · intro hne hM0
    have hMdef : maxScore df =
        (SchemaDetector.nonUnknownTypes.map (SchemaDetector.typeScore cols)).foldl max 0 := rfl
    unfold SchemaDetector.detect_with_confidence
    rw [← hcols]
    have hlen : ¬ cols.length = 0 := by
      simpa [hcols, List.length_eq_zero] using hne
    rw [if_neg hlen]
    dsimp only
    have hMeq : ((SchemaDetector.nonUnknownTypes.map
        (fun dt => (dt, SchemaDetector.typeScore cols dt))).map Prod.snd).foldl max 0 =
        maxScore df := by
      rw [hMdef, List.map_map]
      rfl
    rw [hMeq, if_neg hM0]
    have hconf : (maxScore df : ℚ) / max 3 ((cols.length : ℚ) * (1 / 2)) ⊓ 1 =
        (maxScore df : ℚ) / max 3 ((df.names.length : ℚ) * (1 / 2)) ⊓ 1 := by
      rw [hcols, List.length_map]
    simp only [SchemaDetector.nonUnknownTypes, List.map_cons, List.map_nil]
    by_cases h1 : SchemaDetector.typeScore cols .financial = maxScore df
    · refine ⟨.financial, by decide, ?_, h1, ?_⟩
      · rw [List.find?_cons_of_pos _ (by simp [h1])]
        dsimp only
        rw [hconf]
        rfl
      · intro dt₂ hdt₂ _
        have h0 : List.indexOf ERP.DataType.financial
            [ERP.DataType.financial, .manufacturing, .inventory, .sales, .purchase] = 0 := by
          decide
        rw [h0]
        exact Nat.zero_le _
    · by_cases h2 : SchemaDetector.typeScore cols .manufacturing = maxScore df
      · refine ⟨.manufacturing, by decide, ?_, h2, ?_⟩
        · rw [List.find?_cons_of_neg _ (by simp [h1]),
            List.find?_cons_of_pos _ (by simp [h2])]
          dsimp only
          rw [hconf]
          rfl
        · intro dt₂ hdt₂ hsc
          simp only [SchemaDetector.nonUnknownTypes, List.mem_cons,
            List.mem_singleton, List.not_mem_nil, or_false] at hdt₂
          rcases hdt₂ with rfl | rfl | rfl | rfl | rfl
          · exact absurd hsc h1
          · exact le_refl _
          · decide
          · decide
          · decide
      · by_cases h3 : SchemaDetector.typeScore cols .inventory = maxScore df
        · refine ⟨.inventory, by decide, ?_, h3, ?_⟩
          · rw [List.find?_cons_of_neg _ (by simp [h1]),
              List.find?_cons_of_neg _ (by simp [h2]),
              List.find?_cons_of_pos _ (by simp [h3])]
            dsimp only
            rw [hconf]
            rfl
          · intro dt₂ hdt₂ hsc
            simp only [SchemaDetector.nonUnknownTypes, List.mem_cons,
              List.mem_singleton, List.not_mem_nil, or_false] at hdt₂
            rcases hdt₂ with rfl | rfl | rfl | rfl | rfl
            · exact absurd hsc h1
            · exact absurd hsc h2
            · exact le_refl _
            · decide
            · decide
        · by_cases h4 : SchemaDetector.typeScore cols .sales = maxScore df
          · refine ⟨.sales, by decide, ?_, h4, ?_⟩
            · rw [List.find?_cons_of_neg _ (by simp [h1]),
                List.find?_cons_of_neg _ (by simp [h2]),
                List.find?_cons_of_neg _ (by simp [h3]),
                List.find?_cons_of_pos _ (by simp [h4])]
              dsimp only
              rw [hconf]
              rfl
            · intro dt₂ hdt₂ hsc
              simp only [SchemaDetector.nonUnknownTypes, List.mem_cons,
                List.mem_singleton, List.not_mem_nil, or_false] at hdt₂
              rcases hdt₂ with rfl | rfl | rfl | rfl | rfl
              · exact absurd hsc h1
              · exact absurd hsc h2
              · exact absurd hsc h3
              · exact le_refl _
              · decide
          · by_cases h5 : SchemaDetector.typeScore cols .purchase = maxScore df
            · refine ⟨.purchase, by decide, ?_, h5, ?_⟩
              · rw [List.find?_cons_of_neg _ (by simp [h1]),
                  List.find?_cons_of_neg _ (by simp [h2]),
                  List.find?_cons_of_neg _ (by simp [h3]),
                  List.find?_cons_of_neg _ (by simp [h4]),
                  List.find?_cons_of_pos _ (by simp [h5])]
                dsimp only
                rw [hconf]
                rfl
              · intro dt₂ hdt₂ hsc
                simp only [SchemaDetector.nonUnknownTypes, List.mem_cons,
                  List.mem_singleton, List.not_mem_nil, or_false] at hdt₂
                rcases hdt₂ with rfl | rfl | rfl | rfl | rfl
                · exact absurd hsc h1
                · exact absurd hsc h2
                · exact absurd hsc h3
                · exact absurd hsc h4
                · exact le_refl _
            · exfalso
              rcases foldl_max_attained
                  [SchemaDetector.typeScore cols .financial,
                    SchemaDetector.typeScore cols .manufacturing,
                    SchemaDetector.typeScore cols .inventory,
                    SchemaDetector.typeScore cols .sales,
                    SchemaDetector.typeScore cols .purchase] 0 with hz | hmem
              · refine hM0 ?_
                rw [hMdef]
                simpa [SchemaDetector.nonUnknownTypes] using hz
              · have hMM : maxScore df ∈
                    [SchemaDetector.typeScore cols .financial,
                      SchemaDetector.typeScore cols .manufacturing,
                      SchemaDetector.typeScore cols .inventory,
                      SchemaDetector.typeScore cols .sales,
                      SchemaDetector.typeScore cols .purchase] := by
                  rw [hMdef]
                  simpa [SchemaDetector.nonUnknownTypes] using hmem
                simp only [List.mem_cons, List.mem_singleton, List.not_mem_nil,
                  or_false] at hMM
                rcases hMM with h | h | h | h | h
                · exact h1 h.symm
                · exact h2 h.symm
                · exact h3 h.symm
                · exact h4 h.symm
                · exact h5 h.symm

unseal Rat.mul Rat.inv Rat.add Rat.sub in
/-- Claim C4, witness: the amended characterization applied to the concrete
single-column frame `net_income` (financial wins with pair score 2 and
confidence 0.67). -/
theorem claim_C4_witness :
    (∃ dt, dt ∈ SchemaDetector.nonUnknownTypes ∧
      SchemaDetector.detect_with_confidence ⟨[⟨"net_income", .obj, []⟩]⟩ =
        (dt, codeC4Confidence ⟨[⟨"net_income", .obj, []⟩]⟩) ∧
      SchemaDetector.typeScore
          ((Df.mk [⟨"net_income", .obj, []⟩]).names.map SchemaDetector.normColName) dt =
        maxScore ⟨[⟨"net_income", .obj, []⟩]⟩ ∧
      ∀ dt₂ ∈ SchemaDetector.nonUnknownTypes,
        SchemaDetector.typeScore
            ((Df.mk [⟨"net_income", .obj, []⟩]).names.map SchemaDetector.normColName) dt₂ =
          maxScore ⟨[⟨"net_income", .obj, []⟩]⟩ →
        SchemaDetector.nonUnknownTypes.indexOf dt ≤
          SchemaDetector.nonUnknownTypes.indexOf dt₂) ∧
    codeC4Confidence ⟨[⟨"net_income", .obj, []⟩]⟩ = 67 / 100 :=
  ⟨( claim_C4_theorem ⟨[⟨"net_income", .obj, []⟩]⟩).2.2 (by decide) (by decide), by decide⟩

/-! ## Deduplication: the seen-set loop equals first-occurrence-wins -/

/-- First-occurrence-wins deduplication as the claims word it: keep each
element, drop every later element with the same key (fuel-indexed to stay
structurally recursive). -/
def keepFirstsByAux (key : α → String) : ℕ → List α → List α
  | _, [] => []
  | 0, _ :: _ => []
  | n + 1, a :: t => a :: keepFirstsByAux key n (t.filter (fun b => key b != key a))

/-- First-occurrence-wins deduplication by key. -/
def keepFirstsBy (key : α → String) (l : List α) : List α :=
  keepFirstsByAux key l.length l

/-- The fuel of `keepFirstsByAux` is irrelevant once it covers the list. -/
theorem keepFirstsByAux_fuel (key : α → String) :
    ∀ (n m : ℕ) (l : List α), l.length ≤ n → l.length ≤ m →
      keepFirstsByAux key n l = keepFirstsByAux key m l := by
  intro n
  induction n with
  | zero =>
    intro m l hn _
    cases l with
    | nil => cases m <;> rfl
    | cons a t => simp at hn
  | succ n ih =>
    intro m l hn hm
    cases l with
    | nil => cases m <;> rfl
    | cons a t =>
      cases m with
      | zero => simp at hm
      | succ m =>
        unfold keepFirstsByAux
        refine congrArg (a :: ·) (ih m _ ?_ ?_)
        · exact le_trans (List.length_filter_le _ t) (Nat.succ_le_succ_iff.mp hn)
        · exact le_trans (List.length_filter_le _ t) (Nat.succ_le_succ_iff.mp hm)

/-- The seen-set loop equals first-occurrence-wins deduplication of the
elements whose key is non-empty and unseen. -/
theorem seenDedup_eq_aux (key : α → String) :
    ∀ (l : List α) (n : ℕ) (seen : List String), l.length ≤ n →
      seenDedup key seen l =
        keepFirstsByAux key n
          (l.filter (fun a => key a != "" && !seen.contains (key a))) := by
  intro l
  induction l with
  | nil => intro n seen _; cases n <;> rfl
  | cons a t ih =>
    intro n seen hn
    unfold seenDedup
    dsimp only
    by_cases hk : key a ≠ "" ∧ key a ∉ seen
    · rw [if_pos hk]
      have hpred : (key a != "" && !seen.contains (key a)) = true := by
        simp only [Bool.and_eq_true, bne_iff_ne, Bool.not_eq_true']
        exact ⟨hk.1, by simpa using hk.2⟩
      rw [List.filter_cons, if_pos hpred]
      cases n with
      | zero => simp at hn
      | succ n =>
        unfold keepFirstsByAux
        refine congrArg (a :: ·) ?_
        rw [List.filter_filter]
        rw [ih n (key a :: seen) (Nat.succ_le_succ_iff.mp hn)]
        refine congrArg (keepFirstsByAux key n ·) (List.filter_congr ?_)
        intro b _
        simp only [List.contains_cons, Bool.not_or, Bool.and_eq_true, bne_iff_ne,
          Bool.and_assoc]
        cases hb1 : (key b != "") <;> cases hb2 : (key b == key a) <;>
          cases hb3 : seen.contains (key b) <;> simp_all [bne]
    · rw [if_neg hk]
      have hpred : (key a != "" && !seen.contains (key a)) = false := by
        rcases not_and_or.mp hk with h | h
        · simp only [ne_eq, not_not] at h
          simp [h, bne]
        · have hc : seen.contains (key a) = true :=
            List.elem_eq_true_of_mem (not_not.mp h)
          rw [hc]
          simp
      rw [List.filter_cons, if_neg (by rw [hpred]; exact Bool.false_ne_true)]
      exact ih n seen (le_trans (Nat.le_succ _) hn)

/-- With all keys non-empty the seen-set loop is exactly
first-occurrence-wins deduplication. -/
theorem seenDedup_eq_keepFirsts (key : α → String) (l : List α)
    (h : ∀ a ∈ l, key a ≠ "") :
    seenDedup key [] l = keepFirstsBy key l := by
  rw [seenDedup_eq_aux key l l.length [] le_rfl]
  have hfilter : l.filter (fun a => key a != "" && !([] : List String).contains (key a)) =
      l := by
    apply List.filter_eq_self.mpr
    intro a ha
    simp [h a ha, bne]
  rw [hfilter, keepFirstsBy]

/-- In general the seen-set loop first drops the empty-keyed elements, then
deduplicates first-occurrence-wins. -/
theorem seenDedup_eq_keepFirsts_filter (key : α → String) (l : List α) :
    seenDedup key [] l = keepFirstsBy key (l.filter (fun a => key a != "")) := by
  rw [seenDedup_eq_aux key l l.length [] le_rfl]
  have hfilter : l.filter (fun a => key a != "" && !([] : List String).contains (key a)) =
      l.filter (fun a => key a != "") := by
    apply List.filter_congr
    intro a _
    simp [List.contains]
  rw [hfilter, keepFirstsBy]
  exact keepFirstsByAux_fuel key _ _ _ (List.length_filter_le _ l) le_rfl

/-! ## Claim C7 -/

/-- Stripping a list that starts with a non-whitespace character is never
empty. -/
theorem pyStripList_cons_ne_nil (c : Char) (l : List Char)
    (hc : c.isWhitespace = false) : pyStripList (c :: l) ≠ [] := by
  unfold pyStripList
  rw [List.dropWhile_cons_of_neg (by simp [hc])]
  intro h
  have h2 : ((c :: l).reverse.dropWhile Char.isWhitespace) = [] := by
    simpa using congrArg List.reverse h
  have h3 : ∀ x ∈ (c :: l).reverse, x.isWhitespace = true :=
    List.dropWhile_eq_nil_iff.mp h2
  have := h3 c (by simp)
  rw [hc] at this
  cases this

/-- The dedup key of a risk whose title starts with a non-whitespace,
lowercase-stable character is non-empty. -/
theorem riskKey_ne_empty_of_head (r : Risk) (c : Char) (rest : List Char)
    (ht : r.title.data = c :: rest) (hc : (Char.toLower c).isWhitespace = false) :
    RiskEngine.riskKey r ≠ "" := by
  unfold RiskEngine.riskKey pyStrip pyLower pyTake
  rw [ht]
  intro h
  have hdata : pyStripList ((String.mk ((String.mk ((c :: rest).take 50)).data.map
      Char.toLower)).data) = [] := congrArg String.data h
  simp only [List.take_succ_cons, List.map_cons] at hdata
  exact pyStripList_cons_ne_nil (Char.toLower c) _ hc hdata

/-- Every risk produced by the KPI scan is a margin risk or an inventory
risk. -/
theorem mem_kpi_risks {results : List (String × AnalysisResultM)} {r : Risk}
    (h : r ∈ RiskEngine._identify_kpi_risks results) :
    (∃ m, r = RiskEngine.marginRisk m) ∨ ∃ d v, r = RiskEngine.inventoryRisk d v := by
  unfold RiskEngine._identify_kpi_risks at h
  rw [List.mem_flatten] at h
  obtain ⟨blk, hblk, hr⟩ := h
  rw [List.mem_map] at hblk
  obtain ⟨p, _, rfl⟩ := hblk
  rcases List.mem_append.mp hr with h | h
  · left
    revert h
    cases alookup p.2.kpis "net_margin_pct" with
    | none => intro h; cases h
    | some m =>
      dsimp only
      split_ifs
      · intro h
        exact ⟨m, List.mem_singleton.mp h⟩
      · intro h
        cases h
  · right
    revert h
    cases alookup p.2.kpis "days_inventory_outstanding" with
    | none => intro h; cases h
    | some d =>
      dsimp only
      split_ifs
      · intro h
        exact ⟨d, _, List.mem_singleton.mp h⟩
      · intro h
        cases h

/-- A domain with `net_margin_pct` under 5 contributes its margin risk. -/
theorem marginRisk_mem {results : List (String × AnalysisResultM)}
    {p : String × AnalysisResultM} {m : ℚ} (hp : p ∈ results)
    (hm : alookup p.2.kpis "net_margin_pct" = some m) (hlt : m < 5) :
    RiskEngine.marginRisk m ∈ RiskEngine._identify_kpi_risks results := by
  unfold RiskEngine._identify_kpi_risks
  rw [List.mem_flatten]
  refine ⟨_, List.mem_map_of_mem _ hp, ?_⟩
  apply List.mem_append_left
  rw [hm]
  dsimp only
  rw [if_pos hlt]
  exact List.mem_singleton.mpr rfl

/-- A domain with `days_inventory_outstanding` over 90 contributes its
inventory risk. -/
theorem inventoryRisk_mem {results : List (String × AnalysisResultM)}
    {p : String × AnalysisResultM} {d : ℚ} (hp : p ∈ results)
    (hd : alookup p.2.kpis "days_inventory_outstanding" = some d) (hgt : d > 90) :
    RiskEngine.inventoryRisk d ((alookup p.2.kpis "total_stock_value").getD 0) ∈
      RiskEngine._identify_kpi_risks results := by
  unfold RiskEngine._identify_kpi_risks
  rw [List.mem_flatten]
  refine ⟨_, List.mem_map_of_mem _ hp, ?_⟩
  apply List.mem_append_right
  rw [hd]
  dsimp only
  rw [if_pos hgt]
  exact List.mem_singleton.mpr rfl

/-- Every pre-deduplication risk has a non-empty dedup key. -/
theorem riskKeys_nonempty (results : List (String × AnalysisResultM))
    (insights : List Insight) :
    ∀ r ∈ (insights.filter
        (fun i => i.severity == .critical || i.severity == .high)).map
          RiskEngine._insight_to_risk ++ RiskEngine._identify_kpi_risks results,
      RiskEngine.riskKey r ≠ "" := by
  intro r hr
  rcases List.mem_append.mp hr with h | h
  · rw [List.mem_map] at h
    obtain ⟨i, _, rfl⟩ := h
    refine riskKey_ne_empty_of_head _ 'R' ("isk: " ++ pyTake i.finding 80).data ?_ (by decide)
    show ("Risk: " ++ pyTake i.finding 80).data = _
    rw [String.data_append, String.data_append]
    rfl
  · rcases mem_kpi_risks h with ⟨m, rfl⟩ | ⟨d, v, rfl⟩
    · exact riskKey_ne_empty_of_head _ 'M' _ rfl (by decide)
    · exact riskKey_ne_empty_of_head _ 'I' _ rfl (by decide)

/-- Modelled from the claim: the dedup key the claim asserts (first 50
characters of the title, lower-cased but not trimmed). -/
def claimC7Key (r : Risk) : String :=
  pyLower (pyTake r.title 50)

/-- Claim C7, counterexample: two HIGH insights whose findings differ only
by a trailing space produce risks whose code keys (trimmed) collide but
whose claimed keys (untrimmed) differ, so the code deduplicates where the
claim keeps both. -/
theorem claim_C7_counterexample :
    (RiskEngine.identify_risks []
        [{ category := .financial, severity := .high, finding := "Cash low",
           impact := "i", action := "a", metrics := [] },
         { category := .financial, severity := .high, finding := "Cash low ",
           impact := "i", action := "a", metrics := [] }]).length = 1 ∧
    (keepFirstsBy claimC7Key
        (([({ category := .financial, severity := .high, finding := "Cash low",
              impact := "i", action := "a", metrics := [] } : Insight),
           { category := .financial, severity := .high, finding := "Cash low ",
             impact := "i", action := "a", metrics := [] }].filter
            (fun i => i.severity == .critical || i.severity == .high)).map
          RiskEngine._insight_to_risk ++ RiskEngine._identify_kpi_risks [])).length = 2 ∧
    claimC7Key (RiskEngine._insight_to_risk
        { category := .financial, severity := .high, finding := "Cash low",
          impact := "i", action := "a", metrics := [] }) ≠
      claimC7Key (RiskEngine._insight_to_risk
        { category := .financial, severity := .high, finding := "Cash low ",
          impact := "i", action := "a", metrics := [] }) ∧
    RiskEngine.riskKey (RiskEngine._insight_to_risk
        { category := .financial, severity := .high, finding := "Cash low",
          impact := "i", action := "a", metrics := [] }) =
      RiskEngine.riskKey (RiskEngine._insight_to_risk
        { category := .financial, severity := .high, finding := "Cash low ",
          impact := "i", action := "a", metrics := [] }) :=
  ⟨by decide, by decide, by decide, by decide⟩

/-- Claim C7 (amended): `identify_risks` maps every CRITICAL or HIGH insight
to a risk (probability High for CRITICAL, Medium-High for HIGH,
time_to_impact fixed at 3-6 months), appends a CRITICAL margin risk
(1-3 months) for every domain whose kpis hold `net_margin_pct < 5` and a
HIGH inventory risk (3-6 months) for `days_inventory_outstanding > 90`,
and deduplicates the concatenation keeping the first occurrence per key,
the key being the first 50 characters of the title lower-cased and trimmed
of surrounding whitespace. -/
theorem claim_C7_theorem (results : List (String × AnalysisResultM))
    (insights : List Insight) :
    (RiskEngine.identify_risks results insights =
      keepFirstsBy RiskEngine.riskKey
        ((insights.filter (fun i => i.severity == .critical || i.severity == .high)).map
          RiskEngine._insight_to_risk ++ RiskEngine._identify_kpi_risks results)) ∧
    (∀ i : Insight, i.severity = .critical →
      (RiskEngine._insight_to_risk i).probability = "High" ∧
        (RiskEngine._insight_to_risk i).time_to_impact = "3-6 months") ∧
    (∀ i : Insight, i.severity = .high →
      (RiskEngine._insight_to_risk i).probability = "Medium-High" ∧
        (RiskEngine._insight_to_risk i).time_to_impact = "3-6 months") ∧
    (∀ m : ℚ, (RiskEngine.marginRisk m).severity = .critical ∧
      (RiskEngine.marginRisk m).time_to_impact = "1-3 months") ∧
    (∀ d v : ℚ, (RiskEngine.inventoryRisk d v).severity = .high ∧
      (RiskEngine.inventoryRisk d v).time_to_impact = "3-6 months") ∧
    (∀ p ∈ results, ∀ m : ℚ, alookup p.2.kpis "net_margin_pct" = some m → m < 5 →
      RiskEngine.marginRisk m ∈ RiskEngine._identify_kpi_risks results) ∧
    (∀ p ∈ results, ∀ d : ℚ,
      alookup p.2.kpis "days_inventory_outstanding" = some d → d > 90 →
      RiskEngine.inventoryRisk d ((alookup p.2.kpis "total_stock_value").getD 0) ∈
        RiskEngine._identify_kpi_risks results) := by
  refine ⟨?_, ?_, ?_, ?_, ?_, ?_, ?_⟩
  · unfold RiskEngine.identify_risks RiskEngine._deduplicate_risks
    exact seenDedup_eq_keepFirsts RiskEngine.riskKey _ (riskKeys_nonempty results insights)
  · intro i hi
    unfold RiskEngine._insight_to_risk
    rw [hi]
    exact ⟨rfl, rfl⟩
  · intro i hi
    unfold RiskEngine._insight_to_risk
    rw [hi]
    exact ⟨rfl, rfl⟩
  · intro m
    exact ⟨rfl, rfl⟩
  · intro d v
    exact ⟨rfl, rfl⟩
  · intro p hp m hm hlt
    exact marginRisk_mem hp hm hlt
  · intro p hp d hd hgt
    exact inventoryRisk_mem hp hd hgt

/-- Concrete analysis-results map for the C7 witness. -/
def c7results : List (String × AnalysisResultM) :=
  [("financial", ⟨[("net_margin_pct", 3)], [], []⟩),
   ("inventory", ⟨[("days_inventory_outstanding", 100), ("total_stock_value", 500)], [], []⟩)]

/-- Claim C7, witness: the amended characterization instantiated on a
critical insight and two threshold-breaching domains. -/
theorem claim_C7_witness :
    ((RiskEngine._insight_to_risk
        { category := .financial, severity := .critical, finding := "f",
          impact := "i", action := "a", metrics := [] }).probability = "High" ∧
      (RiskEngine._insight_to_risk
        { category := .financial, severity := .critical, finding := "f",
          impact := "i", action := "a", metrics := [] }).time_to_impact = "3-6 months") ∧
    RiskEngine.marginRisk 3 ∈ RiskEngine._identify_kpi_risks c7results ∧
    RiskEngine.inventoryRisk 100 500 ∈ RiskEngine._identify_kpi_risks c7results :=
  ⟨(claim_C7_theorem c7results []).2.1 _ rfl,
   (claim_C7_theorem c7results []).2.2.2.2.2.1 ("financial", ⟨[("net_margin_pct", 3)], [], []⟩)
     (by decide) 3 (by decide) (by decide),
   by
    have h := (claim_C7_theorem c7results []).2.2.2.2.2.2
      ("inventory", ⟨[("days_inventory_outstanding", 100), ("total_stock_value", 500)], [], []⟩)
      (by decide) 100 (by decide) (by decide)
    simpa using h⟩

/-! ## Claim C2 -/

/-- Totality of the lexicographic string comparison. -/
theorem listLe_total (a : List Char) : ∀ b, listLe a b = true ∨ listLe b a = true := by
  induction a with
  | nil => intro b; exact .inl rfl
  | cons x xs ih =>
    intro b
    cases b with
    | nil => exact .inr rfl
    | cons y ys =>
      unfold listLe
      by_cases hxy : x = y
      · subst hxy
        simp only [beq_self_eq_true, if_true]
        exact ih ys
      · have h1 : (x == y) = false := beq_eq_false_iff_ne.mpr hxy
        have h2 : (y == x) = false := beq_eq_false_iff_ne.mpr (Ne.symm hxy)
        rw [h1, h2]
        simp only [Bool.false_eq_true, if_false]
        rcases lt_trichotomy x y with h | h | h
        · exact .inl (decide_eq_true h)
        · exact absurd h hxy
        · exact .inr (decide_eq_true h)

/-- Transitivity of the lexicographic string comparison. -/
theorem listLe_trans : ∀ (a b c : List Char),
    listLe a b = true → listLe b c = true → listLe a c = true := by
  intro a
  induction a with
  | nil => intro b c _ _; rfl
  | cons x xs ih =>
    intro b c h1 h2
    cases b with
    | nil => cases h1
    | cons y ys =>
      cases c with
      | nil => cases h2
      | cons z zs =>
        unfold listLe at h1 h2 ⊢
        by_cases hxy : x = y
        · subst hxy
          rw [beq_self_eq_true] at h1
          simp only [if_true] at h1
          by_cases hyz : x = z
          · subst hyz
            rw [beq_self_eq_true] at h2 ⊢
            simp only [if_true] at h2 ⊢
            exact ih ys zs h1 h2
          · have hb : (x == z) = false := beq_eq_false_iff_ne.mpr hyz
            rw [hb] at h2 ⊢
            simpa using h2
        · have hb1 : (x == y) = false := beq_eq_false_iff_ne.mpr hxy
          rw [hb1] at h1
          simp only [Bool.false_eq_true, if_false] at h1
          have hlt1 : x < y := of_decide_eq_true h1
          by_cases hyz : y = z
          · subst hyz
            rw [beq_eq_false_iff_ne.mpr hxy]
            simpa using decide_eq_true hlt1
          · have hb2 : (y == z) = false := beq_eq_false_iff_ne.mpr hyz
            rw [hb2] at h2
            simp only [Bool.false_eq_true, if_false] at h2
            have hlt2 : y < z := of_decide_eq_true h2
            have hxz : x < z := lt_trans hlt1 hlt2
            rw [beq_eq_false_iff_ne.mpr (ne_of_lt hxz)]
            simpa using decide_eq_true hxz

/-- Totality of the insight sort comparison. -/
theorem sortKeyLe_total (a b : Insight) :
    InsightEngine.sortKeyLe a b = true ∨ InsightEngine.sortKeyLe b a = true := by
  unfold InsightEngine.sortKeyLe
  rcases lt_trichotomy (InsightEngine.sevRank a.severity)
      (InsightEngine.sevRank b.severity) with h | h | h
  · left
    simp [h]
  · rcases listLe_total a.category.value.data b.category.value.data with hs | hs
    · left
      simp [h, strLe, hs]
    · right
      simp [h.symm, strLe, hs]
  · right
    simp [h]

/-- Transitivity of the insight sort comparison. -/
theorem sortKeyLe_trans (a b c : Insight) (h1 : InsightEngine.sortKeyLe a b = true)
    (h2 : InsightEngine.sortKeyLe b c = true) : InsightEngine.sortKeyLe a c = true := by
  unfold InsightEngine.sortKeyLe at h1 h2 ⊢
  simp only [Bool.or_eq_true, Bool.and_eq_true, decide_eq_true_eq, beq_iff_eq] at h1 h2 ⊢
  rcases h1 with h1 | ⟨h1e, h1s⟩
  · rcases h2 with h2 | ⟨h2e, _⟩
    · exact .inl (lt_trans h1 h2)
    · exact .inl (h2e ▸ h1)
  · rcases h2 with h2 | ⟨h2e, h2s⟩
    · exact .inl (h1e ▸ h2)
    · exact .inr ⟨h1e.trans h2e, listLe_trans _ _ _ h1s h2s⟩

/-- The embedded stable insertion equals Mathlib's `orderedInsert`. -/
theorem insertStable_eq (le : α → α → Bool) (a : α) (l : List α) :
    InsightEngine.insertStable le a l =
      List.orderedInsert (fun x y => le x y = true) a l := by
  induction l with
  | nil => rfl
  | cons b t ih =>
    unfold InsightEngine.insertStable List.orderedInsert
    by_cases h : le a b = true
    · rw [if_pos h, if_pos h]
    · rw [if_neg h, if_neg h, ih]

/-- The embedded stable sort equals Mathlib's insertion sort. -/
theorem isortStable_eq (le : α → α → Bool) (l : List α) :
    InsightEngine.isortStable le l = List.insertionSort (fun x y => le x y = true) l := by
  induction l with
  | nil => rfl
  | cons a t ih =>
    unfold InsightEngine.isortStable List.insertionSort
    rw [ih, insertStable_eq]

/-- The stable sort output is pairwise ordered for any total, transitive
Bool comparison. -/
theorem isortStable_pairwise (le : α → α → Bool)
    (htot : ∀ a b, le a b = true ∨ le b a = true)
    (htr : ∀ a b c, le a b = true → le b c = true → le a c = true) (l : List α) :
    List.Pairwise (fun a b => le a b = true) (InsightEngine.isortStable le l) := by
  rw [isortStable_eq]
  haveI : IsTotal α (fun x y => le x y = true) := ⟨htot⟩
  haveI : IsTrans α (fun x y => le x y = true) := ⟨htr⟩
  exact List.sorted_insertionSort (fun x y => le x y = true) l

/-- The stable sort output is a permutation of its input. -/
theorem isortStable_perm (le : α → α → Bool) (l : List α) :
    (InsightEngine.isortStable le l).Perm l := by
  rw [isortStable_eq]
  exact List.perm_insertionSort (fun x y => le x y = true) l

/-- A single blank-prefixed-finding insight used to refute claim C2. -/
def blankInsight : Insight :=
  { category := .financial, severity := .medium,
    finding := String.mk (List.replicate 100 ' ') ++ "x",
    impact := "i", action := "a", metrics := [] }

/-- Claim C2, counterexample: an insight whose first 100 finding characters
are all blanks has an empty dedup key; `generate_insights` silently drops
it even though it is the first (and only) occurrence, so the output is not
the deduplicated flattened list the claim describes. -/
theorem claim_C2_counterexample :
    InsightEngine.generate_insights [("d", ⟨[], [blankInsight], []⟩)] = [] ∧
    InsightEngine.isortStable InsightEngine.sortKeyLe
        (keepFirstsBy InsightEngine.dedupKey [blankInsight]) = [blankInsight] ∧
    ([] : List Insight) ≠ [blankInsight] ∧
    InsightEngine.dedupKey blankInsight = "" ∧
    blankInsight.finding ≠ "" :=
  ⟨by decide, by decide, by decide, by decide, by decide⟩

/-- Claim C2 (amended): `generate_insights` flattens the per-domain insight
lists in map order, drops every insight whose dedup key (first 100
characters of the finding, lower-cased and trimmed) is empty, removes
duplicates by that key keeping the first occurrence, and stable-sorts the
result by severity rank CRITICAL < HIGH < MEDIUM < LOW then category name;
the output is pairwise ordered, a permutation of the deduplicated list, and
no LOW-severity insight ever precedes a CRITICAL one. -/
theorem claim_C2_theorem (m : List (String × AnalysisResultM)) :
    (InsightEngine.generate_insights m =
      InsightEngine.isortStable InsightEngine.sortKeyLe
        (keepFirstsBy InsightEngine.dedupKey
          (((m.map (fun p => p.2.insights)).flatten).filter
            (fun i => InsightEngine.dedupKey i != "")))) ∧
    List.Pairwise (fun a b => InsightEngine.sortKeyLe a b = true)
      (InsightEngine.generate_insights m) ∧
    (InsightEngine.generate_insights m).Perm
      (keepFirstsBy InsightEngine.dedupKey
        (((m.map (fun p => p.2.insights)).flatten).filter
          (fun i => InsightEngine.dedupKey i != ""))) ∧
    List.Pairwise (fun a b => ¬(a.severity = .low ∧ b.severity = .critical))
      (InsightEngine.generate_insights m) := by
  have hdedup : InsightEngine._deduplicate_insights ((m.map (fun p => p.2.insights)).flatten) =
      keepFirstsBy InsightEngine.dedupKey
        (((m.map (fun p => p.2.insights)).flatten).filter
          (fun i => InsightEngine.dedupKey i != "")) :=
    seenDedup_eq_keepFirsts_filter InsightEngine.dedupKey _
  have hgen : InsightEngine.generate_insights m =
      InsightEngine.isortStable InsightEngine.sortKeyLe
        (keepFirstsBy InsightEngine.dedupKey
          (((m.map (fun p => p.2.insights)).flatten).filter
            (fun i => InsightEngine.dedupKey i != ""))) := by
    show InsightEngine.isortStable InsightEngine.sortKeyLe
        (InsightEngine._deduplicate_insights ((m.map (fun p => p.2.insights)).flatten)) = _
    rw [hdedup]
  have hpair : List.Pairwise (fun a b => InsightEngine.sortKeyLe a b = true)
      (InsightEngine.generate_insights m) := by
    rw [hgen]
    exact isortStable_pairwise InsightEngine.sortKeyLe sortKeyLe_total sortKeyLe_trans _
  refine ⟨hgen, hpair, ?_, ?_⟩
  · rw [hgen]
    exact isortStable_perm _ _
  · refine hpair.imp ?_
    intro a b hle ⟨ha, hb⟩
    unfold InsightEngine.sortKeyLe at hle
    rw [ha, hb] at hle
    simp [InsightEngine.sevRank] at hle

/-! ## Claim C8 -/

/-- The leading severity bullets of the executive summary (amended claim:
nothing leads when the highest severity is MEDIUM or LOW). -/
def c8Lead (insights : List Insight) : List String :=
  let critical := insights.filter (fun i => i.severity == .critical)
  let high := insights.filter (fun i => i.severity == .high)
  if !critical.isEmpty then (critical.take 2).map (fun i => "CRITICAL: " ++ i.finding)
  else
    match high with
    | [] => []
    | h :: _ => ["HIGH PRIORITY: " ++ h.finding]

/-- The headline-KPI bullets, in the fixed revenue / margin / growth /
stock / days order, each present only when its key is. -/
def c8KpiBullets (kpis : List (String × ℚ)) : List String :=
  (match alookup kpis "total_revenue" with
   | some v => ["Total Revenue: $" ++ fmtNum v]
   | none => []) ++
  (match alookup kpis "net_margin_pct" with
   | some v => ["Net Margin: " ++ fmtNum v ++ "%"]
   | none => []) ++
  (match alookup kpis "revenue_growth" with
   | some g => [(if g > 0 then "Revenue Growth: ↑ " else "Revenue Growth: ↓ ") ++
      fmtNum |g| ++ "%"]
   | none => []) ++
  (match alookup kpis "total_stock_value" with
   | some v => ["Inventory Value: $" ++ fmtNum v]
   | none => []) ++
  (match alookup kpis "days_inventory_outstanding" with
   | some v => ["Days Inventory: " ++ fmtNum v]
   | none => [])

/-- The closing action-teaser bullet (truncated preview of the top
insight's action). -/
def c8Teaser (insights : List Insight) : List String :=
  match insights with
  | [] => []
  | i :: _ => ["IMMEDIATE ACTION: " ++ pyTake i.action 100 ++ "..."]

/-- Claim C8, counterexample: with a single MEDIUM insight (no CRITICAL, no
HIGH) the summary does not lead with the highest-severity finding - its only
bullet is the action teaser and the finding text appears nowhere. -/
theorem claim_C8_counterexample :
    InsightEngine.generate_executive_summary
        [{ category := .financial, severity := .medium, finding := "margin dropped",
           impact := "i", action := "act", metrics := [] }] [] =
      ["IMMEDIATE ACTION: act..."] ∧
    strContains "IMMEDIATE ACTION: act..." "margin dropped" = false :=
  ⟨by decide, by decide⟩

/-- Claim C8 (amended): the executive summary is the truncation to 7 bullets
of lead ++ headline-KPI bullets ++ action teaser, in that fixed order and
never padded; it leads with up to 2 CRITICAL findings; with no CRITICAL but
at least one HIGH insight it leads with the first HIGH finding; when the
highest severity present is MEDIUM or LOW no leading severity bullet is
emitted at all. -/
theorem claim_C8_theorem (insights : List Insight) (kpis : List (String × ℚ)) :
    (InsightEngine.generate_executive_summary insights kpis =
      (c8Lead insights ++ c8KpiBullets kpis ++ c8Teaser insights).take 7) ∧
    (InsightEngine.generate_executive_summary insights kpis).length ≤ 7 ∧
    (insights.filter (fun i => i.severity == .critical) ≠ [] →
      ∃ rest, InsightEngine.generate_executive_summary insights kpis =
        ((insights.filter (fun i => i.severity == .critical)).take 2).map
          (fun i => "CRITICAL: " ++ i.finding) ++ rest) ∧
    (∀ h t, insights.filter (fun i => i.severity == .critical) = [] →
      insights.filter (fun i => i.severity == .high) = h :: t →
      ∃ rest, InsightEngine.generate_executive_summary insights kpis =
        ("HIGH PRIORITY: " ++ h.finding) :: rest) ∧
    (insights.filter (fun i => i.severity == .critical) = [] →
      insights.filter (fun i => i.severity == .high) = [] →
      InsightEngine.generate_executive_summary insights kpis =
        (c8KpiBullets kpis ++ c8Teaser insights).take 7) := by
  have heq : InsightEngine.generate_executive_summary insights kpis =
      (c8Lead insights ++ c8KpiBullets kpis ++ c8Teaser insights).take 7 := by
    unfold InsightEngine.generate_executive_summary c8Lead c8KpiBullets c8Teaser
    simp only [List.append_assoc]
  have hpre : ∀ (A B C : List String), A.length ≤ 7 →
      ∃ rest, (A ++ B ++ C).take 7 = A ++ rest := by
    intro A B C h
    refine ⟨(B ++ C).take (7 - A.length), ?_⟩
    rw [List.append_assoc, List.take_append_eq_append_take, List.take_of_length_le h]
  refine ⟨heq, ?_, ?_, ?_, ?_⟩
  · rw [heq]
    exact List.length_take_le 7 _
  · intro hc
    rw [heq]
    have hlead : c8Lead insights =
        ((insights.filter (fun i => i.severity == .critical)).take 2).map
          (fun i => "CRITICAL: " ++ i.finding) := by
      unfold c8Lead
      rw [if_pos (by simpa [List.isEmpty_iff] using hc)]
    rw [hlead]
    apply hpre
    calc (((insights.filter (fun i => i.severity == .critical)).take 2).map
        (fun i => "CRITICAL: " ++ i.finding)).length
        = ((insights.filter (fun i => i.severity == .critical)).take 2).length :=
          List.length_map _ _
      _ ≤ 2 := List.length_take_le 2 _
      _ ≤ 7 := by omega
  · intro h t hc hh
    rw [heq]
    have hlead : c8Lead insights = ["HIGH PRIORITY: " ++ h.finding] := by
      unfold c8Lead
      rw [if_neg (by simp [hc]), hh]
    rw [hlead]
    obtain ⟨rest, hrest⟩ := hpre ["HIGH PRIORITY: " ++ h.finding]
      (c8KpiBullets kpis) (c8Teaser insights) (by simp)
    exact ⟨rest, by rw [hrest]; rfl⟩
  · intro hc hh
    rw [heq]
    have hlead : c8Lead insights = [] := by
      unfold c8Lead
      rw [if_neg (by simp [hc]), hh]
    rw [hlead, List.nil_append]

unseal Rat.mul Rat.inv Rat.add Rat.sub in
/-- Claim C8, witness: the amended characterization at a critical-plus-high
insight list with a revenue KPI present, and the no-lead clause at a single
MEDIUM insight. -/
theorem claim_C8_witness :
    (∃ rest, InsightEngine.generate_executive_summary
        [{ category := .financial, severity := .critical, finding := "c1",
           impact := "i", action := "a", metrics := [] },
         { category := .sales, severity := .high, finding := "h1",
           impact := "i", action := "a", metrics := [] }] [("total_revenue", 1000)] =
        ["CRITICAL: c1"] ++ rest) ∧
    InsightEngine.generate_executive_summary
        [{ category := .financial, severity := .medium, finding := "m1",
           impact := "i", action := "act", metrics := [] }] [] =
      (c8KpiBullets [] ++ c8Teaser
        [{ category := .financial, severity := .medium, finding := "m1",
           impact := "i", action := "act", metrics := [] }]).take 7 :=
  ⟨(claim_C8_theorem
      [{ category := .financial, severity := .critical, finding := "c1",
         impact := "i", action := "a", metrics := [] },
       { category := .sales, severity := .high, finding := "h1",
         impact := "i", action := "a", metrics := [] }]
      [("total_revenue", 1000)]).2.2.1 (by decide),
   (claim_C8_theorem
      [{ category := .financial, severity := .medium, finding := "m1",
         impact := "i", action := "act", metrics := [] }] []).2.2.2.2 (by decide) (by decide)⟩

/-! ## Claim C9 -/

/-- Fold of addition continued from `b` is `b` plus the sum. -/
theorem foldl_add_eq (m : List ℚ) : ∀ b : ℚ, m.foldl (· + ·) b = b + m.sum := by
  induction m with
  | nil => intro b; simp
  | cons x xs ih =>
    intro b
    rw [List.foldl_cons, ih, List.sum_cons]
    ring

/-- Entries of `scanl (+)` are the partial folds. -/
theorem scanl_add_getD (l : List ℚ) : ∀ (n : ℕ) (b : ℚ), n < l.length + 1 →
    (l.scanl (· + ·) b).getD n 0 = (l.take n).foldl (· + ·) b := by
  induction l with
  | nil =>
    intro n b hn
    simp only [List.length_nil] at hn
    have hn0 : n = 0 := by omega
    subst hn0
    rfl
  | cons a t ih =>
    intro n b hn
    cases n with
    | zero => rfl
    | succ m =>
      rw [List.scanl_cons]
      show (t.scanl (· + ·) (b + a)).getD m 0 = _
      rw [ih m (b + a) (by simpa using hn)]
      rw [List.take_succ_cons, List.foldl_cons]

/-- The `k`-th cumulative sum is the sum of the first `k+1` values. -/
theorem cumsum_getD (l : List ℚ) (k : ℕ) (hk : k < l.length) :
    (BaseAnalyzer.cumsum l).getD k 0 = (l.take (k + 1)).sum := by
  unfold BaseAnalyzer.cumsum
  cases l with
  | nil => cases hk
  | cons a t =>
    rw [List.scanl_cons]
    show (t.scanl (· + ·) (0 + a)).getD k 0 = _
    rw [scanl_add_getD t k (0 + a) (by simpa using hk)]
    rw [List.take_succ_cons, List.sum_cons, foldl_add_eq]
    ring

/-- Length of the cumulative-sum list. -/
theorem cumsum_length (l : List ℚ) : (BaseAnalyzer.cumsum l).length = l.length := by
  unfold BaseAnalyzer.cumsum
  rw [List.length_tail, List.length_scanl]
  rfl

/-- Sums of all-nonpositive lists are nonpositive. -/
theorem list_sum_nonpos (l : List ℚ) (h : ∀ x ∈ l, x ≤ 0) : l.sum ≤ 0 := by
  induction l with
  | nil => simp
  | cons a t ih =>
    rw [List.sum_cons]
    have := h a (List.mem_cons_self a t)
    have := ih (fun x hx => h x (List.mem_cons_of_mem a hx))
    linarith

/-- Core of the Pareto least-`N` characterization: once a cumulative prefix
sum of a descending list with positive total stays at or below a bound `c`
strictly smaller than the total, every earlier prefix sum does too. -/
theorem psum_downclosed (vals : List ℚ) (hsort : List.Pairwise (fun a b => b ≤ a) vals)
    (c : ℚ) (hc : c < vals.sum) :
    ∀ i j : ℕ, i ≤ j → j < vals.length →
      (vals.take (j + 1)).sum ≤ c → (vals.take (i + 1)).sum ≤ c := by
  intro i j hij hj hpj
  by_contra hpi
  push_neg at hpi
  -- the segment between the two prefixes has negative sum, so it contains a
  -- negative value
  have hseg : ((vals.take (j + 1)).drop (i + 1)).sum < 0 := by
    have hsplit : (vals.take (j + 1)).sum =
        ((vals.take (j + 1)).take (i + 1)).sum + ((vals.take (j + 1)).drop (i + 1)).sum := by
      rw [← List.sum_append, List.take_append_drop]
    have htt : (vals.take (j + 1)).take (i + 1) = vals.take (i + 1) := by
      rw [List.take_take]
      congr 1
      omega
    rw [htt] at hsplit
    linarith
  have hxneg : ∃ x ∈ (vals.take (j + 1)).drop (i + 1), x < 0 := by
    by_contra hall
    push_neg at hall
    have : 0 ≤ ((vals.take (j + 1)).drop (i + 1)).sum :=
      List.sum_nonneg (fun x hx => hall x hx)
    linarith
  obtain ⟨x, hxmem, hx0⟩ := hxneg
  -- every value after position j is at most x, hence negative
  have hxtake : x ∈ vals.take (j + 1) := (List.drop_subset _ _) hxmem
  have hpair : ∀ a ∈ vals.take (j + 1), ∀ b ∈ vals.drop (j + 1), b ≤ a := by
    have hperm : vals = vals.take (j + 1) ++ vals.drop (j + 1) :=
      (List.take_append_drop (j + 1) vals).symm
    have h2 := hperm ▸ hsort
    exact fun a ha b hb => (List.pairwise_append.mp h2).2.2 a ha b hb
  have htail : (vals.drop (j + 1)).sum ≤ 0 := by
    apply list_sum_nonpos
    intro b hb
    have := hpair x hxtake b hb
    linarith
  have htotal : vals.sum = (vals.take (j + 1)).sum + (vals.drop (j + 1)).sum := by
    rw [← List.sum_append, List.take_append_drop]
  linarith

/-- Entries of the `takeWhile` prefix satisfy the predicate. -/
theorem takeWhile_getD_true (p : ℚ → Bool) (l : List ℚ) :
    ∀ j, j < (l.takeWhile p).length → p (l.getD j 0) = true := by
  induction l with
  | nil => intro j hj; simp [List.takeWhile] at hj
  | cons a t ih =>
    intro j hj
    by_cases pa : p a = true
    · rw [List.takeWhile_cons_of_pos pa] at hj
      cases j with
      | zero => exact pa
      | succ m => exact ih m (by simpa using hj)
    · rw [List.takeWhile_cons_of_neg pa] at hj
      cases hj

/-- The entry right after the `takeWhile` prefix fails the predicate. -/
theorem takeWhile_getD_false (p : ℚ → Bool) (l : List ℚ)
    (h : (l.takeWhile p).length < l.length) :
    p (l.getD (l.takeWhile p).length 0) = false := by
  induction l with
  | nil => cases h
  | cons a t ih =>
    by_cases pa : p a = true
    · rw [List.takeWhile_cons_of_pos pa] at h ⊢
      simp only [List.length_cons]
      exact ih (by simpa using h)
    · rw [List.takeWhile_cons_of_neg pa] at h ⊢
      simp only [List.length_nil]
      exact Bool.eq_false_iff.mpr pa

/-- Under index-downward closure, `countP` counts exactly the `takeWhile`
prefix. -/
theorem countP_eq_takeWhile_length (p : ℚ → Bool) (l : List ℚ)
    (h : ∀ i j : ℕ, i ≤ j → j < l.length → p (l.getD j 0) = true → p (l.getD i 0) = true) :
    l.countP p = (l.takeWhile p).length := by
  induction l with
  | nil => rfl
  | cons a t ih =>
    by_cases pa : p a = true
    · rw [List.takeWhile_cons_of_pos pa, List.countP_cons_of_pos _ _ pa]
      simp only [List.length_cons]
      rw [ih]
      intro i j hij hj hpj
      exact h (i + 1) (j + 1) (by omega) (by simpa using hj) hpj
    · rw [List.takeWhile_cons_of_neg pa, List.countP_cons_of_neg _ _ pa]
      simp only [List.length_nil]
      rw [List.countP_eq_zero]
      intro x hx
      obtain ⟨m, hm, rfl⟩ := List.mem_iff_getElem.mp hx
      have := h 0 (m + 1) (by omega) (by simpa using hm)
      rw [List.getD_eq_getElem] at this
      · intro hpx
        exact pa (this (by simpa using hpx))
      · simpa using hm

/-- Claim-side recomputation: the descending-sorted per-category sums. -/
def paretoAgg (df : Df) (ccol vcol : String) : List (Cell × ℚ) :=
  match BaseAnalyzer.findCol df ccol, BaseAnalyzer.findCol df vcol with
  | some cc, some vc =>
    InsightEngine.isortStable (fun a b => decide (b.2 ≤ a.2))
      (BaseAnalyzer.groupSums (cc.cells.zip (vc.cells.map BaseAnalyzer.cellVal)))
  | _, _ => []

/-- Claim-side recomputation: the sorted summed values. -/
def paretoVals (df : Df) (ccol vcol : String) : List ℚ :=
  (paretoAgg df ccol vcol).map Prod.snd

/-- Claim-side recomputation: the total value. -/
def paretoTotal (df : Df) (ccol vcol : String) : ℚ :=
  (paretoVals df ccol vcol).sum

/-- Claim-side recomputation: the cumulative percentages. -/
def paretoCumPct (df : Df) (ccol vcol : String) : List ℚ :=
  (BaseAnalyzer.cumsum (paretoVals df ccol vcol)).map
    (fun c => c / paretoTotal df ccol vcol * 100)

/-- Claim-side recomputation: the number of top items used for the
concentration label (one item for five or fewer categories, else the floor
of a fifth of them). -/
def paretoTop20Count (df : Df) (ccol vcol : String) : ℕ :=
  if (paretoAgg df ccol vcol).length > 5 then (paretoAgg df ccol vcol).length * 2 / 10 else 1

/-- Claim-side recomputation: the top-items contribution percentage. -/
def paretoTop20Pct (df : Df) (ccol vcol : String) : ℚ :=
  if paretoTotal df ccol vcol > 0 then
    (((paretoAgg df ccol vcol).take (paretoTop20Count df ccol vcol)).map Prod.snd).sum /
      paretoTotal df ccol vcol * 100
  else 0

/-- `getD` through a `map` at an in-range index. -/
theorem getD_map_lt (f : ℚ → ℚ) (l : List ℚ) (i : ℕ) (hi : i < l.length) :
    (l.map f).getD i 0 = f (l.getD i 0) := by
  rw [List.getD_eq_getElem _ _ (by simpa using hi), List.getD_eq_getElem _ _ hi]
  exact List.getElem_map f

unseal Rat.mul Rat.inv Rat.add Rat.sub in
/-- Claim C9, counterexample: categories A = 80 and B = 20.  The cumulative
percentage of the first category is exactly 80, so the claimed smallest `N`
with cumulative `≥ 80%` is 1, but the code returns `items_for_80_pct = 2`
(its count treats an exact 80% prefix as not yet done). -/
theorem claim_C9_counterexample :
    BaseAnalyzer.pareto_analysis
        ⟨[⟨"cat", .obj, [.str "A", .str "B"]⟩, ⟨"val", .num, [.num 80, .num 20]⟩]⟩
        "cat" "val" 10 =
      .ok
        { total_value := 100
          items_for_80_pct := 2
          items_for_80_contribution := 100
          top_20_contribution_pct := 80
          concentration := "MEDIUM"
          top_contributors := [⟨.str "A", 80, 80⟩, ⟨.str "B", 20, 100⟩]
          full_pareto := [⟨.str "A", 80, 80⟩, ⟨.str "B", 20, 100⟩] } ∧
    paretoCumPct ⟨[⟨"cat", .obj, [.str "A", .str "B"]⟩, ⟨"val", .num, [.num 80, .num 20]⟩]⟩
        "cat" "val" = [80, 100] ∧
    (80 : ℚ) ≤ 80 ∧ (2 : ℕ) ≠ 1 :=
  ⟨by decide, by decide, by decide, by decide⟩

/-- Claim C9 (amended): with both columns present and a positive summed
total, `pareto_analysis` sorts the per-category sums descending (the result
is a descending permutation of the group sums), and `items_for_80_pct` is
the smallest `N` such that the cumulative percentage of the first `N`
categories strictly exceeds 80% (a prefix reaching exactly 80% is not
enough), necessarily between 1 and the category count; the concentration
label is HIGH when the top-20%-items contribution exceeds 80%, MEDIUM when
it exceeds 60%, else LOW, the top-items count being 1 for five or fewer
categories and one fifth (floored) of them otherwise. -/
theorem claim_C9_theorem (df : Df) (ccol vcol : String) (top_n : ℕ) (cc vc : Col)
    (hcc : BaseAnalyzer.findCol df ccol = some cc)
    (hvc : BaseAnalyzer.findCol df vcol = some vc)
    (hpos : 0 < paretoTotal df ccol vcol) :
    ∃ d : BaseAnalyzer.ParetoData,
      BaseAnalyzer.pareto_analysis df ccol vcol top_n = .ok d ∧
      List.Pairwise (fun a b : Cell × ℚ => b.2 ≤ a.2) (paretoAgg df ccol vcol) ∧
      (paretoAgg df ccol vcol).Perm
        (BaseAnalyzer.groupSums (cc.cells.zip (vc.cells.map BaseAnalyzer.cellVal))) ∧
      1 ≤ d.items_for_80_pct ∧
      d.items_for_80_pct ≤ (paretoAgg df ccol vcol).length ∧
      80 < (paretoCumPct df ccol vcol).getD (d.items_for_80_pct - 1) 0 ∧
      (∀ j, j < d.items_for_80_pct - 1 → (paretoCumPct df ccol vcol).getD j 0 ≤ 80) ∧
      d.concentration =
        (if 80 < paretoTop20Pct df ccol vcol then "HIGH"
         else if 60 < paretoTop20Pct df ccol vcol then "MEDIUM" else "LOW") := by
  have hA : paretoAgg df ccol vcol =
      InsightEngine.isortStable (fun a b => decide (b.2 ≤ a.2))
        (BaseAnalyzer.groupSums (cc.cells.zip (vc.cells.map BaseAnalyzer.cellVal))) := by
    unfold paretoAgg
    rw [hcc, hvc]
  -- descending order and permutation
  have hsorted : List.Pairwise (fun a b : Cell × ℚ => b.2 ≤ a.2) (paretoAgg df ccol vcol) := by
    rw [hA]
    have hp := isortStable_pairwise (fun a b : Cell × ℚ => decide (b.2 ≤ a.2))
      (fun a b => by
        rcases le_total b.2 a.2 with h | h
        · exact .inl (decide_eq_true h)
        · exact .inr (decide_eq_true h))
      (fun a b c h1 h2 => decide_eq_true
        (le_trans (of_decide_eq_true h2) (of_decide_eq_true h1)))
      (BaseAnalyzer.groupSums (cc.cells.zip (vc.cells.map BaseAnalyzer.cellVal)))
    exact hp.imp (fun h => of_decide_eq_true h)
  have hperm : (paretoAgg df ccol vcol).Perm
      (BaseAnalyzer.groupSums (cc.cells.zip (vc.cells.map BaseAnalyzer.cellVal))) := by
    rw [hA]
    exact isortStable_perm _ _
  -- abbreviations
  have hvals_sorted : List.Pairwise (fun a b : ℚ => b ≤ a) (paretoVals df ccol vcol) := by
    unfold paretoVals
    exact (List.pairwise_map).mpr hsorted
  have hvalpos : 0 < (paretoVals df ccol vcol).sum := hpos
  have hvne : paretoVals df ccol vcol ≠ [] := by
    intro h
    rw [h] at hvalpos
    simp at hvalpos
  have hlenpos : 0 < (paretoVals df ccol vcol).length :=
    List.length_pos.mpr hvne
  have hcplen : (paretoCumPct df ccol vcol).length = (paretoVals df ccol vcol).length := by
    unfold paretoCumPct
    rw [List.length_map, cumsum_length]
  -- cumulative entries
  have hcpget : ∀ j, j < (paretoVals df ccol vcol).length →
      (paretoCumPct df ccol vcol).getD j 0 =
        ((paretoVals df ccol vcol).take (j + 1)).sum / paretoTotal df ccol vcol * 100 := by
    intro j hj
    unfold paretoCumPct
    rw [getD_map_lt _ _ j (by rw [cumsum_length]; exact hj), cumsum_getD _ _ hj]
  -- translation between the percentage bound and the value bound
  have hbound : ∀ x : ℚ, (x / paretoTotal df ccol vcol * 100 ≤ 80 ↔
      x ≤ 4 / 5 * paretoTotal df ccol vcol) := by
    intro x
    rw [div_mul_eq_mul_div, div_le_iff hpos]
    constructor <;> intro h <;> linarith
  -- downward closure of the ≤ 80 predicate along indices
  have hdown : ∀ i j : ℕ, i ≤ j → j < (paretoCumPct df ccol vcol).length →
      (decide ((paretoCumPct df ccol vcol).getD j 0 ≤ 80)) = true →
      (decide ((paretoCumPct df ccol vcol).getD i 0 ≤ 80)) = true := by
    intro i j hij hj hpj
    rw [hcplen] at hj
    rw [hcpget j hj] at hpj
    rw [hcpget i (lt_of_le_of_lt hij hj)]
    apply decide_eq_true
    rw [hbound]
    refine psum_downclosed (paretoVals df ccol vcol) hvals_sorted
      (4 / 5 * paretoTotal df ccol vcol) (by unfold paretoTotal at hpos ⊢; linarith)
      i j hij hj ?_
    rw [← hbound]
    exact of_decide_eq_true hpj
  -- the crossing count
  have hK : (paretoCumPct df ccol vcol).countP (fun x => decide (x ≤ 80)) =
      ((paretoCumPct df ccol vcol).takeWhile (fun x => decide (x ≤ 80))).length :=
    countP_eq_takeWhile_length _ _ hdown
  have hlast : (paretoCumPct df ccol vcol).getD
      ((paretoVals df ccol vcol).length - 1) 0 = 100 := by
    rw [hcpget _ (by omega)]
    have : (paretoVals df ccol vcol).length - 1 + 1 = (paretoVals df ccol vcol).length := by
      omega
    rw [this, List.take_of_length_le le_rfl]
    unfold paretoTotal
    rw [div_self (ne_of_gt hvalpos)]
    norm_num
  have hKlt : ((paretoCumPct df ccol vcol).takeWhile (fun x => decide (x ≤ 80))).length <
      (paretoCumPct df ccol vcol).length := by
    rcases lt_or_eq_of_le (List.takeWhile_prefix _).length_le with h | h
    · exact h
    · exfalso
      have h80 := takeWhile_getD_true (fun x => decide (x ≤ 80)) (paretoCumPct df ccol vcol)
        ((paretoVals df ccol vcol).length - 1) (by rw [h, hcplen]; omega)
      rw [hlast] at h80
      have := of_decide_eq_true h80
      linarith
  have hlenEq : (paretoVals df ccol vcol).length = (paretoAgg df ccol vcol).length := by
    unfold paretoVals
    simp
  -- `items_for_80_pct` as computed by the code, in claim-side vocabulary
  set K : ℕ := ((paretoCumPct df ccol vcol).takeWhile (fun x => decide (x ≤ 80))).length
    with hKdef
  have hKlt' : K < (paretoAgg df ccol vcol).length := by
    rw [← hlenEq, ← hcplen]
    exact hKlt
  have hitems : min (((paretoCumPct df ccol vcol).countP (fun x => decide (x ≤ 80))) + 1)
      (paretoAgg df ccol vcol).length = K + 1 := by
    rw [hK]
    exact min_eq_left (by omega)
  -- the code returns this record
  refine ⟨{ total_value := paretoTotal df ccol vcol
            items_for_80_pct := min
              (((paretoCumPct df ccol vcol).countP (fun x => decide (x ≤ 80))) + 1)
              (paretoAgg df ccol vcol).length
            items_for_80_contribution := round2
              ((((paretoAgg df ccol vcol).take (min
                  (((paretoCumPct df ccol vcol).countP (fun x => decide (x ≤ 80))) + 1)
                  (paretoAgg df ccol vcol).length)).map Prod.snd).sum /
                paretoTotal df ccol vcol * 100)
            top_20_contribution_pct := round2 (paretoTop20Pct df ccol vcol)
            concentration :=
              if paretoTop20Pct df ccol vcol > 80 then "HIGH"
              else if paretoTop20Pct df ccol vcol > 60 then "MEDIUM"
              else "LOW"
            top_contributors := (((paretoAgg df ccol vcol).zip
              (paretoCumPct df ccol vcol)).map
                (fun p => BaseAnalyzer.ParetoEntry.mk p.1.1 p.1.2 (round2 p.2))).take top_n
            full_pareto := ((paretoAgg df ccol vcol).zip
              (paretoCumPct df ccol vcol)).map
                (fun p => BaseAnalyzer.ParetoEntry.mk p.1.1 p.1.2 (round2 p.2)) },
    ?_, hsorted, hperm, ?_, ?_, ?_, ?_, ?_⟩
  · -- the run itself
    unfold BaseAnalyzer.pareto_analysis
    rw [hcc, hvc]
    dsimp only
    rw [show (InsightEngine.isortStable (fun a b : Cell × ℚ => decide (b.2 ≤ a.2))
        (BaseAnalyzer.groupSums (cc.cells.zip (vc.cells.map BaseAnalyzer.cellVal)))) =
        paretoAgg df ccol vcol from hA.symm]
    rw [if_neg (show ¬ (((paretoAgg df ccol vcol).map Prod.snd).sum = 0) from
      ne_of_gt hpos)]
    rfl
  · -- at least one item
    dsimp only
    omega
  · -- capped at the category count
    dsimp only
    exact min_le_right _ _
  · -- the chosen prefix strictly exceeds 80%
    dsimp only
    rw [hitems]
    simp only [Nat.add_sub_cancel]
    have hf := takeWhile_getD_false (fun x => decide (x ≤ 80)) (paretoCumPct df ccol vcol)
      hKlt
    rw [← hKdef] at hf
    have := of_decide_eq_false hf
    exact lt_of_not_le this
  · -- every shorter prefix stays at or below 80%
    dsimp only
    rw [hitems]
    simp only [Nat.add_sub_cancel]
    intro j hj
    have ht := takeWhile_getD_true (fun x => decide (x ≤ 80)) (paretoCumPct df ccol vcol)
      j (by rw [← hKdef]; exact hj)
    exact of_decide_eq_true ht
  · -- the concentration label
    dsimp only

unseal Rat.mul Rat.inv Rat.add Rat.sub in
theorem claim_C9_witness :
    ∃ d : BaseAnalyzer.ParetoData,
      BaseAnalyzer.pareto_analysis
          ⟨[⟨"cat", .obj, [.str "A", .str "B"]⟩, ⟨"val", .num, [.num 80, .num 20]⟩]⟩
          "cat" "val" 10 = .ok d ∧
      1 ≤ d.items_for_80_pct ∧
      d.items_for_80_pct ≤
        (paretoAgg ⟨[⟨"cat", .obj, [.str "A", .str "B"]⟩, ⟨"val", .num, [.num 80, .num 20]⟩]⟩
          "cat" "val").length := by
  obtain ⟨d, h1, _, _, h4, h5, _, _, _⟩ :=
    claim_C9_theorem
      ⟨[⟨"cat", .obj, [.str "A", .str "B"]⟩, ⟨"val", .num, [.num 80, .num 20]⟩]⟩
      "cat" "val" 10 ⟨"cat", .obj, [.str "A", .str "B"]⟩ ⟨"val", .num, [.num 80, .num 20]⟩
      (by decide) (by decide) (by decide)
  exact ⟨d, h1, h4, h5⟩

/-! ### Claim C5: idempotence of the cleaning pipeline -/

/-- ASCII lowering is idempotent. -/
theorem toLower_toLower (c : Char) : c.toLower.toLower = c.toLower := by
  unfold Char.toLower
  by_cases h : c.toNat ≥ 65 ∧ c.toNat ≤ 90
  · rw [if_pos h]
    have hv : (c.toNat + 32).isValidChar := Or.inl (by omega)
    have ht : (Char.ofNat (c.toNat + 32)).toNat = c.toNat + 32 := by
      unfold Char.ofNat
      rw [dif_pos hv]
      rfl
    rw [if_neg (by omega)]
  · rw [if_neg h, if_neg h]

/-- Code-point ranges of the word characters. -/
theorem wordChar_toNat (c : Char) (h : SchemaDetector.isWordChar c = true) :
    (48 ≤ c.toNat ∧ c.toNat ≤ 57) ∨ (65 ≤ c.toNat ∧ c.toNat ≤ 90) ∨
    (97 ≤ c.toNat ∧ c.toNat ≤ 122) ∨ c.toNat = 95 := by
  unfold SchemaDetector.isWordChar at h
  simp [Char.isAlphanum, Char.isAlpha, Char.isDigit, Char.isUpper, Char.isLower] at h
  rcases h with ((h | h) | h) | h
  · exact Or.inr (Or.inl h)
  · exact Or.inr (Or.inr (Or.inl h))
  · exact Or.inl h
  · subst h
    exact Or.inr (Or.inr (Or.inr rfl))

/-- Word characters are not whitespace. -/
theorem wordChar_not_ws (c : Char) (h : SchemaDetector.isWordChar c = true) :
    c.isWhitespace = false := by
  have hn := wordChar_toNat c h
  unfold Char.isWhitespace
  simp only [Bool.or_eq_false_iff, decide_eq_false_iff_not]
  refine ⟨⟨⟨?_, ?_⟩, ?_⟩, ?_⟩ <;> intro he <;> subst he <;> revert hn <;> decide

/-- Word characters are not separator characters. -/
theorem wordChar_not_sep (c : Char) (h : SchemaDetector.isWordChar c = true) :
    DataCleaner.isSepChar c = false := by
  have hn := wordChar_toNat c h
  unfold DataCleaner.isSepChar
  rw [wordChar_not_ws c h]
  have hd : (c == '-') = false := by
    simp only [beq_eq_false_iff_ne, ne_eq]
    intro he
    subst he
    revert hn
    decide
  have hs : (c == '/') = false := by
    simp only [beq_eq_false_iff_ne, ne_eq]
    intro he
    subst he
    revert hn
    decide
  rw [hd, hs]
  rfl

/-- Pointwise-identity maps are the identity. -/
theorem map_id_of (f : α → α) (l : List α) (h : ∀ x ∈ l, f x = x) : l.map f = l := by
  rw [List.map_congr_left h]
  exact List.map_id l

/-- Characters produced by the separator collapse come from the input or are
underscores. -/
theorem collapseSeps_mem (l : List Char) :
    ∀ b, ∀ c ∈ DataCleaner.collapseSepsAux b l, c = '_' ∨ c ∈ l := by
  induction l with
  | nil =>
    intro b c hc
    cases hc
  | cons a t ih =>
    intro b c hc
    unfold DataCleaner.collapseSepsAux at hc
    split_ifs at hc with h1 h2
    · rcases ih true c hc with h | h
      · exact Or.inl h
      · exact Or.inr (List.mem_cons_of_mem a h)
    · rcases List.mem_cons.mp hc with h | h
      · exact Or.inl h
      · rcases ih true c h with h' | h'
        · exact Or.inl h'
        · exact Or.inr (List.mem_cons_of_mem a h')
    · rcases List.mem_cons.mp hc with h | h
      · exact Or.inr (h ▸ List.mem_cons_self a t)
      · rcases ih false c h with h' | h'
        · exact Or.inl h'
        · exact Or.inr (List.mem_cons_of_mem a h')

/-- Collapsing separators is the identity on separator-free strings. -/
theorem collapseSeps_id (l : List Char) :
    (∀ c ∈ l, DataCleaner.isSepChar c = false) →
      ∀ b, DataCleaner.collapseSepsAux b l = l := by
  induction l with
  | nil =>
    intro _ b
    rfl
  | cons a t ih =>
    intro h b
    unfold DataCleaner.collapseSepsAux
    rw [if_neg (by rw [h a (List.mem_cons_self a t)]; exact Bool.false_ne_true)]
    exact congrArg (a :: ·) (ih (fun c hc => h c (List.mem_cons_of_mem a hc)) false)

/-- `dropWhile` is the identity when nothing satisfies the predicate. -/
theorem dropWhile_id_of (p : α → Bool) (l : List α) (h : ∀ c ∈ l, p c = false) :
    l.dropWhile p = l := by
  cases l with
  | nil => rfl
  | cons a t =>
    rw [List.dropWhile_cons, h a (List.mem_cons_self a t)]
    exact if_neg Bool.false_ne_true

/-- Stripping is the identity on whitespace-free strings. -/
theorem pyStripList_id (l : List Char) (h : ∀ c ∈ l, c.isWhitespace = false) :
    pyStripList l = l := by
  unfold pyStripList
  rw [dropWhile_id_of _ _ h,
    dropWhile_id_of _ _ (fun c hc => h c (List.mem_reverse.mp hc)),
    List.reverse_reverse]

/-- Members of a stripped string come from the original string. -/
theorem mem_pyStripList (l : List Char) (c : Char) (h : c ∈ pyStripList l) : c ∈ l := by
  unfold pyStripList at h
  rw [List.mem_reverse] at h
  have h1 := (List.dropWhile_sublist _).mem h
  rw [List.mem_reverse] at h1
  exact (List.dropWhile_sublist _).mem h1

/-- Every character of a cleaned column name is a lower-case-stable word
character. -/
theorem cleanColName_chars (s : String) :
    ∀ c ∈ (DataCleaner.cleanColName s).data,
      SchemaDetector.isWordChar c = true ∧ Char.toLower c = c := by
  intro c hc
  have hdata : (DataCleaner.cleanColName s).data =
      (DataCleaner.collapseSepsAux false
        (pyStripList (s.data.map Char.toLower))).filter SchemaDetector.isWordChar := rfl
  rw [hdata] at hc
  refine ⟨List.of_mem_filter hc, ?_⟩
  rcases collapseSeps_mem _ false c (List.mem_of_mem_filter hc) with h | h
  · subst h
    decide
  · rcases List.mem_map.mp (mem_pyStripList _ c h) with ⟨x, _, hx⟩
    rw [← hx]
    exact toLower_toLower x

/-- The name cleaner fixes any string of lower-case-stable word characters. -/
theorem cleanColName_fixed (u : String)
    (h : ∀ c ∈ u.data, SchemaDetector.isWordChar c = true ∧ Char.toLower c = c) :
    DataCleaner.cleanColName u = u := by
  unfold DataCleaner.cleanColName
  rw [map_id_of _ _ (fun c hc => (h c hc).2),
    pyStripList_id _ (fun c hc => wordChar_not_ws c (h c hc).1),
    collapseSeps_id _ (fun c hc => wordChar_not_sep c (h c hc).1) false,
    List.filter_eq_self.mpr (fun c hc => (h c hc).1)]

/-- The column-name standardization is idempotent. -/
theorem cleanColName_idem (s : String) :
    DataCleaner.cleanColName (DataCleaner.cleanColName s) = DataCleaner.cleanColName s :=
  cleanColName_fixed _ (cleanColName_chars s)

/-- `pd.to_datetime` is idempotent on cells. -/
theorem toDatetimeCell_idem (x : Cell) :
    DataCleaner.toDatetimeCell (DataCleaner.toDatetimeCell x) =
      DataCleaner.toDatetimeCell x := by
  cases x with
  | na => rfl
  | num q => rfl
  | date t => rfl
  | str s =>
    cases h : DataCleaner.parseDateStr s <;>
      simp [DataCleaner.toDatetimeCell, h]

/-- Filling missing entries with `"Unknown"` does not change what parses as a
number. -/
theorem toNumericCell_fill (x : Cell) :
    DataCleaner.toNumericCell (DataCleaner.fillCell (Cell.str "Unknown") x) =
      DataCleaner.toNumericCell x := by
  cases x <;> rfl

/-- A column filled with a non-missing value has no missing cells left. -/
theorem naCount_fill (v : Cell) (hv : (v == Cell.na) = false) (l : List Cell) :
    DataCleaner.naCount (l.map (DataCleaner.fillCell v)) = 0 := by
  unfold DataCleaner.naCount
  rw [List.countP_eq_zero]
  intro c hc
  rcases List.mem_map.mp hc with ⟨x, _, hx⟩
  subst hx
  cases x with
  | na => simp [DataCleaner.fillCell, hv]
  | str s => simp [DataCleaner.fillCell]
  | num q => simp [DataCleaner.fillCell]
  | date t => simp [DataCleaner.fillCell]

/-- `convertDatesCol` keeps the column name. -/
theorem convertDatesCol_name (c : Col) :
    (DataCleaner.convertDatesCol c).1.name = c.name := by
  unfold DataCleaner.convertDatesCol
  split_ifs <;> rfl

/-- `convertDatesCol` keeps the column length. -/
theorem convertDatesCol_len (c : Col) :
    (DataCleaner.convertDatesCol c).1.cells.length = c.cells.length := by
  unfold DataCleaner.convertDatesCol
  split_ifs <;> simp

/-- `cleanNumericsCol` keeps the column name. -/
theorem cleanNumericsCol_name (c : Col) :
    (DataCleaner.cleanNumericsCol c).1.name = c.name := by
  unfold DataCleaner.cleanNumericsCol
  dsimp only
  split_ifs <;> rfl

/-- `cleanNumericsCol` keeps the column length. -/
theorem cleanNumericsCol_len (c : Col) :
    (DataCleaner.cleanNumericsCol c).1.cells.length = c.cells.length := by
  unfold DataCleaner.cleanNumericsCol
  dsimp only
  split_ifs <;> simp

/-- `handleMissingCol` keeps the column name. -/
theorem handleMissingCol_name (N : ℕ) (c : Col) :
    (DataCleaner.handleMissingCol N c).1.name = c.name := by
  unfold DataCleaner.handleMissingCol
  dsimp only
  split_ifs <;> first
    | rfl
    | (cases DataCleaner.median (DataCleaner.colNums c.cells) <;> rfl)

/-- `handleMissingCol` keeps the column dtype. -/
theorem handleMissingCol_dtype (N : ℕ) (c : Col) :
    (DataCleaner.handleMissingCol N c).1.dtype = c.dtype := by
  unfold DataCleaner.handleMissingCol
  dsimp only
  split_ifs <;> first
    | rfl
    | (cases DataCleaner.median (DataCleaner.colNums c.cells) <;> rfl)

/-- `handleMissingCol` keeps the column length. -/
theorem handleMissingCol_len (N : ℕ) (c : Col) :
    (DataCleaner.handleMissingCol N c).1.cells.length = c.cells.length := by
  unfold DataCleaner.handleMissingCol
  dsimp only
  split_ifs <;> first
    | simp
    | (cases DataCleaner.median (DataCleaner.colNums c.cells) <;> simp)

/-- Columns that are not date-like pass through `convertDatesCol`. -/
theorem convertDates_not_dateLike (c : Col) (h : DataCleaner.dateLike c.name = false) :
    DataCleaner.convertDatesCol c = (c, []) := by
  unfold DataCleaner.convertDatesCol
  rw [h]
  exact if_neg Bool.false_ne_true

/-- Columns that are not object-typed pass through `cleanNumericsCol`. -/
theorem cleanNumerics_not_obj (c : Col) (h : (c.dtype == Dtype.obj) = false) :
    DataCleaner.cleanNumericsCol c = (c, []) := by
  unfold DataCleaner.cleanNumericsCol
  rw [h, Bool.and_false]
  exact if_neg Bool.false_ne_true

/-- Datetime columns pass through `handleMissingCol`. -/
theorem handleMissing_dts (N : ℕ) (c : Col) (h : c.dtype = Dtype.dts) :
    DataCleaner.handleMissingCol N c = (c, []) := by
  unfold DataCleaner.handleMissingCol
  by_cases h0 : DataCleaner.naCount c.cells = 0
  · rw [if_pos h0]
  · rw [if_neg h0]
    simp [h]

/-- `handleMissingCol` is idempotent (at a fixed row count). -/
theorem handleMissing_idem (N : ℕ) (c : Col) :
    DataCleaner.handleMissingCol N (DataCleaner.handleMissingCol N c).1 =
      ((DataCleaner.handleMissingCol N c).1, []) := by
  by_cases h0 : DataCleaner.naCount c.cells = 0
  · have h1 : DataCleaner.handleMissingCol N c = (c, []) := by
      unfold DataCleaner.handleMissingCol
      rw [if_pos h0]
    rw [h1]
    rw [h1]
  · cases hdt : c.dtype with
    | dts =>
      rw [handleMissing_dts N c hdt]
      exact handleMissing_dts N c hdt
    | obj =>
      have h1 : DataCleaner.handleMissingCol N c =
          ({ c with cells := c.cells.map (DataCleaner.fillCell (Cell.str "Unknown")) },
           [⟨"fillna_unknown", DataCleaner.naCount c.cells⟩]) := by
        unfold DataCleaner.handleMissingCol
        rw [if_neg h0]
        simp [hdt]
      rw [h1]
      unfold DataCleaner.handleMissingCol
      rw [if_pos (naCount_fill (Cell.str "Unknown") rfl c.cells)]
    | num =>
      by_cases hp : ((DataCleaner.naCount c.cells : ℚ) / (N : ℚ) * 100 < 10)
      · cases hm : DataCleaner.median (DataCleaner.colNums c.cells) with
        | some m =>
          have h1 : DataCleaner.handleMissingCol N c =
              ({ c with cells := c.cells.map (DataCleaner.fillCell (Cell.num m)) },
               [⟨"fillna_median", DataCleaner.naCount c.cells⟩]) := by
            unfold DataCleaner.handleMissingCol
            rw [if_neg h0]
            simp [hdt, hp, hm]
          rw [h1]
          unfold DataCleaner.handleMissingCol
          rw [if_pos (naCount_fill (Cell.num m) rfl c.cells)]
        | none =>
          have h1 : DataCleaner.handleMissingCol N c = (c, []) := by
            unfold DataCleaner.handleMissingCol
            rw [if_neg h0]
            simp [hdt, hp, hm]
          rw [h1]
          rw [h1]
      · have h1 : DataCleaner.handleMissingCol N c = (c, []) := by
          unfold DataCleaner.handleMissingCol
          rw [if_neg h0]
          simp [hdt, hp]
        rw [h1]
        rw [h1]

/-- Columns whose name does not look numeric pass through `cleanNumericsCol`. -/
theorem cleanNumerics_not_like (c : Col) (h : DataCleaner.numericLike c.name = false) :
    DataCleaner.cleanNumericsCol c = (c, []) := by
  unfold DataCleaner.cleanNumericsCol
  rw [h, Bool.false_and]
  exact if_neg Bool.false_ne_true

/-- If the output of `cleanNumericsCol` is still object-typed, the stage did
nothing (a successful conversion retypes the column as numeric). -/
theorem cleanNumerics_obj_out (c : Col)
    (h : (DataCleaner.cleanNumericsCol c).1.dtype = Dtype.obj) :
    DataCleaner.cleanNumericsCol c = (c, []) := by
  unfold DataCleaner.cleanNumericsCol at h ⊢
  dsimp only at h ⊢
  split_ifs at h ⊢ <;> first | rfl | simp at h

/-- The numeric-cleaning stage has nothing left to do after the
missing-value stage: filling `"Unknown"` adds no parseable values, so the
50%-parseable test keeps failing. -/
theorem cleanNumerics_then_missing (N : ℕ) (c : Col) :
    DataCleaner.cleanNumericsCol
      (DataCleaner.handleMissingCol N (DataCleaner.cleanNumericsCol c).1).1 =
    ((DataCleaner.handleMissingCol N (DataCleaner.cleanNumericsCol c).1).1, []) := by
  set c5 : Col := (DataCleaner.cleanNumericsCol c).1 with hc5
  set c6 : Col := (DataCleaner.handleMissingCol N c5).1 with hc6
  by_cases hobj6 : c6.dtype = Dtype.obj
  case neg => exact cleanNumerics_not_obj c6 (beq_eq_false_iff_ne.mpr hobj6)
  case pos =>
  cases hlike : DataCleaner.numericLike c6.name with
  | false => exact cleanNumerics_not_like c6 hlike
  | true =>
  have h65 : c6.dtype = c5.dtype := by
    rw [hc6]
    exact handleMissingCol_dtype N c5
  have hobj5 : c5.dtype = Dtype.obj := by
    rw [← h65]
    exact hobj6
  have h5c : DataCleaner.cleanNumericsCol c = (c, []) := by
    apply cleanNumerics_obj_out c
    rw [← hc5]
    exact hobj5
  have hc5c : c5 = c := by
    rw [hc5, h5c]
  have hname65 : c6.name = c5.name := by
    rw [hc6]
    exact handleMissingCol_name N c5
  have hobjc : c.dtype = Dtype.obj := by
    rw [← hc5c]
    exact hobj5
  have hlikec : DataCleaner.numericLike c.name = true := by
    rw [hname65, hc5c] at hlike
    exact hlike
  have houterc : (DataCleaner.numericLike c.name && (c.dtype == Dtype.obj)) = true := by
    rw [hlikec, hobjc]
    rfl
  have hfail : ¬ ((List.countP Option.isSome (c.cells.map DataCleaner.toNumericCell) : ℚ) >
      (List.countP (fun x => x != Cell.na) c.cells : ℚ) * (1 / 2)) := by
    intro hgt
    unfold DataCleaner.cleanNumericsCol at h5c
    dsimp only at h5c
    rw [if_pos houterc, if_pos hgt] at h5c
    exact List.cons_ne_nil _ _ (congrArg Prod.snd h5c)
  by_cases hmiss : DataCleaner.naCount c.cells = 0
  · have h6c : c6 = c := by
      rw [hc6, hc5c]
      unfold DataCleaner.handleMissingCol
      rw [if_pos hmiss]
    rw [h6c]
    exact h5c
  · have h6f : c6 =
        ⟨c.name, c.dtype, c.cells.map (DataCleaner.fillCell (Cell.str "Unknown"))⟩ := by
      rw [hc6, hc5c]
      unfold DataCleaner.handleMissingCol
      rw [if_neg hmiss]
      dsimp only
      simp [hobjc]
    have hcells6 : c6.cells.map DataCleaner.toNumericCell =
        c.cells.map DataCleaner.toNumericCell := by
      rw [h6f]
      dsimp only
      rw [List.map_map]
      exact List.map_congr_left (fun x _ => toNumericCell_fill x)
    have horig : List.countP (fun x => x != Cell.na) c.cells ≤
        List.countP (fun x => x != Cell.na) c6.cells := by
      rw [h6f]
      dsimp only
      rw [List.countP_map]
      apply List.countP_mono_left
      intro x _ hx
      cases x with
      | na => simp at hx
      | str s => exact hx
      | num q => exact hx
      | date t => exact hx
    have houter6 : (DataCleaner.numericLike c6.name && (c6.dtype == Dtype.obj)) = true := by
      rw [hlike, Bool.true_and]
      exact beq_iff_eq.mpr hobj6
    have hinner6 : ¬ ((List.countP Option.isSome (c6.cells.map DataCleaner.toNumericCell) : ℚ) >
        (List.countP (fun x => x != Cell.na) c6.cells : ℚ) * (1 / 2)) := by
      rw [hcells6]
      intro hgt
      apply hfail
      have hle : ((List.countP (fun x => x != Cell.na) c.cells : ℚ)) ≤
          ((List.countP (fun x => x != Cell.na) c6.cells : ℚ)) := by
        exact_mod_cast horig
      linarith
    unfold DataCleaner.cleanNumericsCol
    dsimp only
    rw [if_pos houter6, if_neg hinner6]

/-- The date-conversion stage has nothing left to do after a full pass:
date-like columns hold only datetimes and `NaT`s. -/
theorem convertDates_then_rest (N : ℕ) (c3 : Col) (c6 : Col)
    (h6 : c6 = (DataCleaner.handleMissingCol N
      (DataCleaner.cleanNumericsCol (DataCleaner.convertDatesCol c3).1).1).1) :
    DataCleaner.convertDatesCol c6 = (c6, []) := by
  cases hd : DataCleaner.dateLike c3.name with
  | false =>
    have hname : c6.name = c3.name := by
      rw [h6, handleMissingCol_name, cleanNumericsCol_name, convertDatesCol_name]
    apply convertDates_not_dateLike c6
    rw [hname]
    exact hd
  | true =>
    have h4 : (DataCleaner.convertDatesCol c3).1 =
        ⟨c3.name, Dtype.dts, c3.cells.map DataCleaner.toDatetimeCell⟩ := by
      unfold DataCleaner.convertDatesCol
      rw [if_pos hd]
    have h5 : (DataCleaner.cleanNumericsCol (DataCleaner.convertDatesCol c3).1).1 =
        ⟨c3.name, Dtype.dts, c3.cells.map DataCleaner.toDatetimeCell⟩ := by
      rw [h4, cleanNumerics_not_obj
        ⟨c3.name, Dtype.dts, c3.cells.map DataCleaner.toDatetimeCell⟩ rfl]
    have h6c : c6 = ⟨c3.name, Dtype.dts, c3.cells.map DataCleaner.toDatetimeCell⟩ := by
      rw [h6, h5, handleMissing_dts N
        ⟨c3.name, Dtype.dts, c3.cells.map DataCleaner.toDatetimeCell⟩ rfl]
    rw [h6c]
    unfold DataCleaner.convertDatesCol
    dsimp only
    rw [if_pos hd]
    have hmm : (c3.cells.map DataCleaner.toDatetimeCell).map DataCleaner.toDatetimeCell =
        c3.cells.map DataCleaner.toDatetimeCell := by
      rw [List.map_map]
      exact List.map_congr_left (fun x _ => toDatetimeCell_idem x)
    rw [hmm, if_neg (lt_irrefl _)]

/-- Invariants of a fully processed column: each per-column stage of a second
`clean` pass fixes it. -/
theorem cleanedCol_invariant (N : ℕ) (c0 : Col) (c6 : Col)
    (h6 : c6 = (DataCleaner.handleMissingCol N
      (DataCleaner.cleanNumericsCol
        (DataCleaner.convertDatesCol
          { c0 with name := DataCleaner.cleanColName c0.name }).1).1).1) :
    DataCleaner.cleanColName c6.name = c6.name ∧
    DataCleaner.convertDatesCol c6 = (c6, []) ∧
    DataCleaner.cleanNumericsCol c6 = (c6, []) ∧
    DataCleaner.handleMissingCol N c6 = (c6, []) := by
  have hname : c6.name = DataCleaner.cleanColName c0.name := by
    rw [h6, handleMissingCol_name, cleanNumericsCol_name, convertDatesCol_name]
  refine ⟨?_, convertDates_then_rest N _ c6 h6, ?_, ?_⟩
  · rw [hname]
    exact cleanColName_idem c0.name
  · rw [h6]
    exact cleanNumerics_then_missing N _
  · rw [h6]
    exact handleMissing_idem N _

/-- Rectangularity: every column holds `nRows` cells. -/
def Rect (df : Df) : Prop :=
  ∀ c ∈ df.cols, c.cells.length = df.nRows

/-- A well-formed frame is rectangular. -/
theorem wf_rect (df : Df) (h : df.Wf) : Rect df := by
  intro c hc
  cases hd : df.cols with
  | nil =>
    rw [hd] at hc
    cases hc
  | cons a t =>
    have hn : df.nRows = a.cells.length := by
      unfold Df.nRows
      rw [hd]
    rw [hn]
    exact h c hc a (by rw [hd]; exact List.mem_cons_self a t)

/-- An all-true mask keeps every element. -/
theorem applyMask_replicate_true (l : List α) :
    DataCleaner.applyMask (List.replicate l.length true) l = l := by
  induction l with
  | nil => rfl
  | cons a t ih =>
    show DataCleaner.applyMask (List.replicate (t.length + 1) true) (a :: t) = a :: t
    unfold DataCleaner.applyMask at ih ⊢
    rw [List.replicate_succ, List.zip_cons_cons, List.filter_cons_of_pos rfl,
      List.map_cons]
    exact congrArg (a :: ·) ih

/-- Counting the trues of an all-true mask. -/
theorem countP_id_replicate_true (n : ℕ) :
    List.countP id (List.replicate n true) = n := by
  induction n with
  | zero => rfl
  | succ k ih =>
    rw [List.replicate_succ, List.countP_cons]
    simp [ih]

/-- The kept-row count of a mask bounds the filtered length. -/
theorem applyMask_length (mask : List Bool) :
    ∀ l : List α, mask.length = l.length →
      (DataCleaner.applyMask mask l).length = mask.countP id := by
  induction mask with
  | nil =>
    intro l _
    rfl
  | cons b mt ih =>
    intro l h
    cases l with
    | nil => simp at h
    | cons a t =>
      have ht : mt.length = t.length := by simpa using h
      unfold DataCleaner.applyMask at ih ⊢
      rw [List.zip_cons_cons, List.filter_cons, List.countP_cons]
      cases b with
      | true => simp [ih t ht]
      | false => simp [ih t ht]

/-- Row counts survive any cell-count-preserving per-column map. -/
theorem nRows_map (d : Df) (f : Col → Col)
    (hf : ∀ c, (f c).cells.length = c.cells.length) :
    Df.nRows ⟨d.cols.map f⟩ = d.nRows := by
  cases hd : d.cols with
  | nil => simp [Df.nRows, hd]
  | cons a t => simp [Df.nRows, hd, hf]

/-- Rectangularity survives any cell-count-preserving per-column map. -/
theorem rect_map (d : Df) (f : Col → Col)
    (hf : ∀ c, (f c).cells.length = c.cells.length) (hr : Rect d) :
    Rect ⟨d.cols.map f⟩ := by
  intro c hc
  rcases List.mem_map.mp hc with ⟨c0, hc0, rfl⟩
  rw [nRows_map d f hf, hf c0]
  exact hr c0 hc0

/-- Rectangularity survives dropping the same masked rows in every column. -/
theorem rect_mask (d : Df) (mask : List Bool) (hm : mask.length = d.nRows)
    (hr : Rect d) :
    Rect ⟨d.cols.map (fun c =>
      { c with cells := DataCleaner.applyMask mask c.cells })⟩ := by
  intro c hc
  rcases List.mem_map.mp hc with ⟨c0, hc0, rfl⟩
  have hlen : ∀ c1 ∈ d.cols,
      (DataCleaner.applyMask mask c1.cells).length = mask.countP id := by
    intro c1 hc1
    exact applyMask_length mask c1.cells (by rw [hm, hr c1 hc1])
  cases hd : d.cols with
  | nil =>
    rw [hd] at hc0
    cases hc0
  | cons a t =>
    have hn : Df.nRows ⟨(a :: t).map (fun c =>
        { c with cells := DataCleaner.applyMask mask c.cells })⟩ =
        (DataCleaner.applyMask mask a.cells).length := rfl
    rw [hn]
    show (DataCleaner.applyMask mask c0.cells).length = _
    rw [hlen c0 hc0, hlen a (by rw [hd]; exact List.mem_cons_self a t)]

/-- A frame with no fully-missing rows survives `dropna(how='all')`. -/
theorem dropAllNa_id (d : Df) (hrect : Rect d)
    (hna : ∀ i < d.nRows, DataCleaner.rowIsAllNa d i = false) :
    DataCleaner.dropAllNaRows d = (d, 0) := by
  unfold DataCleaner.dropAllNaRows
  dsimp only
  have hmask : (List.range d.nRows).map (fun i => !DataCleaner.rowIsAllNa d i) =
      List.replicate d.nRows true := by
    rw [List.eq_replicate_iff]
    refine ⟨by simp, ?_⟩
    intro b hb
    rcases List.mem_map.mp hb with ⟨i, hi, rfl⟩
    rw [hna i (List.mem_range.mp hi), Bool.not_false]
  rw [hmask, Prod.mk.injEq]
  constructor
  · rw [map_id_of _ _ (fun c hc => by
      rw [← hrect c hc, applyMask_replicate_true])]
  · rw [countP_id_replicate_true]
    omega

/-- A frame with no repeated rows survives `drop_duplicates()`. -/
theorem dropDup_id (d : Df) (hrect : Rect d)
    (hdup : ∀ i < d.nRows, ∀ j < i, DataCleaner.dfRow d j ≠ DataCleaner.dfRow d i) :
    DataCleaner.dropDupRows d = (d, 0) := by
  unfold DataCleaner.dropDupRows DataCleaner.dupMask
  dsimp only
  have hmask : (List.range d.nRows).map
      (fun i => decide (∀ j < i, DataCleaner.dfRow d j ≠ DataCleaner.dfRow d i)) =
      List.replicate d.nRows true := by
    rw [List.eq_replicate_iff]
    refine ⟨by simp, ?_⟩
    intro b hb
    rcases List.mem_map.mp hb with ⟨i, hi, rfl⟩
    exact decide_eq_true (hdup i (List.mem_range.mp hi))
  rw [hmask, Prod.mk.injEq]
  constructor
  · rw [map_id_of _ _ (fun c hc => by
      rw [← hrect c hc, applyMask_replicate_true])]
  · rw [countP_id_replicate_true]
    omega

/-- The four per-column stages are frame-level no-ops on a frame whose
columns they all fix. -/
theorem stages_id (d : Df)
    (h : ∀ c ∈ d.cols, DataCleaner.cleanColName c.name = c.name ∧
      DataCleaner.convertDatesCol c = (c, []) ∧
      DataCleaner.cleanNumericsCol c = (c, []) ∧
      DataCleaner.handleMissingCol d.nRows c = (c, [])) :
    DataCleaner._clean_column_names d = (d, []) ∧
    DataCleaner._convert_dates d = (d, []) ∧
    DataCleaner._clean_numerics d = (d, []) ∧
    DataCleaner._handle_missing_values d = (d, []) := by
  refine ⟨?_, ?_, ?_, ?_⟩
  · unfold DataCleaner._clean_column_names
    dsimp only
    have hren : d.cols.countP
        (fun c => DataCleaner.cleanColName c.name != c.name) = 0 := by
      rw [List.countP_eq_zero]
      intro c hc
      rw [(h c hc).1]
      simp
    rw [hren, map_id_of _ _ (fun c hc => by rw [(h c hc).1])]
    simp
  · unfold DataCleaner._convert_dates
    rw [map_id_of _ _ (fun c hc => congrArg Prod.fst (h c hc).2.1),
      List.flatten_eq_nil_iff.mpr (fun l hl => by
        rcases List.mem_map.mp hl with ⟨c, hc, rfl⟩
        rw [(h c hc).2.1])]
  · unfold DataCleaner._clean_numerics
    rw [map_id_of _ _ (fun c hc => congrArg Prod.fst (h c hc).2.2.1),
      List.flatten_eq_nil_iff.mpr (fun l hl => by
        rcases List.mem_map.mp hl with ⟨c, hc, rfl⟩
        rw [(h c hc).2.2.1])]
  · unfold DataCleaner._handle_missing_values
    rw [map_id_of _ _ (fun c hc => congrArg Prod.fst (h c hc).2.2.2),
      List.flatten_eq_nil_iff.mpr (fun l hl => by
        rcases List.mem_map.mp hl with ⟨c, hc, rfl⟩
        rw [(h c hc).2.2.2])]

/-- Every column of a cleaned frame satisfies the second-pass per-column
invariants. -/
theorem clean_cols_invariant (df : Df) :
    ∀ c ∈ (DataCleaner.clean df).1.cols,
      DataCleaner.cleanColName c.name = c.name ∧
      DataCleaner.convertDatesCol c = (c, []) ∧
      DataCleaner.cleanNumericsCol c = (c, []) ∧
      DataCleaner.handleMissingCol (DataCleaner.clean df).1.nRows c = (c, []) := by
  intro c hc
  set d2 : Df := (DataCleaner.dropDupRows (DataCleaner.dropAllNaRows df).1).1 with hd2
  set d3 : Df := (DataCleaner._clean_column_names d2).1 with hd3
  set d4 : Df := (DataCleaner._convert_dates d3).1 with hd4
  set d5 : Df := (DataCleaner._clean_numerics d4).1 with hd5
  have hclean : (DataCleaner.clean df).1 = (DataCleaner._handle_missing_values d5).1 := rfl
  rw [hclean] at hc
  have hc5 : c ∈ d5.cols.map (fun c1 => (DataCleaner.handleMissingCol d5.nRows c1).1) := hc
  rcases List.mem_map.mp hc5 with ⟨c5, hc5m, rfl⟩
  have hc4 : c5 ∈ d4.cols.map (fun c1 => (DataCleaner.cleanNumericsCol c1).1) := hc5m
  rcases List.mem_map.mp hc4 with ⟨c4, hc4m, rfl⟩
  have hc3 : c4 ∈ d3.cols.map (fun c1 => (DataCleaner.convertDatesCol c1).1) := hc4m
  rcases List.mem_map.mp hc3 with ⟨c3, hc3m, rfl⟩
  have hc2 : c3 ∈ d2.cols.map
      (fun c1 => { c1 with name := DataCleaner.cleanColName c1.name }) := hc3m
  rcases List.mem_map.mp hc2 with ⟨c0, hc0m, rfl⟩
  have hN : (DataCleaner.clean df).1.nRows = d5.nRows := by
    rw [hclean]
    exact nRows_map d5 (fun c1 => (DataCleaner.handleMissingCol d5.nRows c1).1)
      (handleMissingCol_len d5.nRows)
  rw [hN]
  exact cleanedCol_invariant d5.nRows c0 _ rfl

/-- A cleaned frame is rectangular when the input was. -/
theorem clean_rect (df : Df) (hwf : df.Wf) : Rect (DataCleaner.clean df).1 := by
  have hr0 : Rect df := wf_rect df hwf
  have hr1 : Rect (DataCleaner.dropAllNaRows df).1 :=
    rect_mask df _ (by simp) hr0
  have hr2 : Rect (DataCleaner.dropDupRows (DataCleaner.dropAllNaRows df).1).1 :=
    rect_mask _ _ (by simp [DataCleaner.dupMask]) hr1
  have hr3 : Rect (DataCleaner._clean_column_names
      (DataCleaner.dropDupRows (DataCleaner.dropAllNaRows df).1).1).1 :=
    rect_map _ _ (fun c => rfl) hr2
  have hr4 : Rect (DataCleaner._convert_dates (DataCleaner._clean_column_names
      (DataCleaner.dropDupRows (DataCleaner.dropAllNaRows df).1).1).1).1 :=
    rect_map _ _ convertDatesCol_len hr3
  have hr5 : Rect (DataCleaner._clean_numerics (DataCleaner._convert_dates
      (DataCleaner._clean_column_names (DataCleaner.dropDupRows
        (DataCleaner.dropAllNaRows df).1).1).1).1).1 :=
    rect_map _ _ cleanNumericsCol_len hr4
  exact rect_map _ _ (handleMissingCol_len _) hr5

unseal Rat.mul Rat.inv Rat.add Rat.sub in
/-- Claim C5, counterexample: one object column named `date` holding the
string `"hello"`.  The first pass coerces the value to `NaT` (logging a
`date_conversion`), leaving an all-missing row; the second pass then drops
that row and logs `remove_empty_rows`, so the second pass is not a no-op. -/
theorem claim_C5_counterexample :
    DataCleaner.clean ⟨[⟨"date", .obj, [.str "hello"]⟩]⟩ =
      (⟨[⟨"date", .dts, [.na]⟩]⟩, [], [⟨"date_conversion", 1⟩]) ∧
    DataCleaner.clean ⟨[⟨"date", .dts, [.na]⟩]⟩ =
      (⟨[⟨"date", .dts, []⟩]⟩, [], [⟨"remove_empty_rows", 1⟩]) ∧
    ((⟨[⟨"date", .dts, []⟩]⟩ : Df), ([] : List DataCleaner.DataQualityIssue),
        [(⟨"remove_empty_rows", 1⟩ : DataCleaner.LogEntry)]) ≠
      ((⟨[⟨"date", .dts, [.na]⟩]⟩ : Df), [], []) :=
  ⟨by decide, by decide, by decide⟩

/-- Claim C5 (amended): on a rectangular input, re-cleaning the cleaned
output is a no-op - no renames, no re-coercions, no imputations, no issues
and no log entries - PROVIDED the cleaned output contains no all-missing
rows and no duplicate rows.  (Those two row-dropping stages can have new
work on a second pass, because date coercion may create all-missing rows
and value coercion may create duplicates, as the counterexample shows.) -/
theorem claim_C5_theorem (df : Df) (hwf : df.Wf)
    (hna : ∀ i < (DataCleaner.clean df).1.nRows,
      DataCleaner.rowIsAllNa (DataCleaner.clean df).1 i = false)
    (hdup : ∀ i < (DataCleaner.clean df).1.nRows, ∀ j < i,
      DataCleaner.dfRow (DataCleaner.clean df).1 j ≠
        DataCleaner.dfRow (DataCleaner.clean df).1 i) :
    DataCleaner.clean ((DataCleaner.clean df).1) = ((DataCleaner.clean df).1, [], []) := by
  have hrect := clean_rect df hwf
  have hinv := clean_cols_invariant df
  obtain ⟨h3, h4, h5, h6⟩ := stages_id (DataCleaner.clean df).1 hinv
  have h1 := dropAllNa_id (DataCleaner.clean df).1 hrect hna
  have h2 := dropDup_id (DataCleaner.clean df).1 hrect hdup
  set df1 : Df := (DataCleaner.clean df).1 with hdf1
  show DataCleaner.clean df1 = (df1, [], [])
  unfold DataCleaner.clean
  dsimp only
  rw [h1]
  dsimp only
  rw [h2]
  dsimp only
  rw [h3]
  dsimp only
  rw [h4]
  dsimp only
  rw [h5]
  dsimp only
  rw [h6]
  simp

unseal Rat.mul Rat.inv Rat.add Rat.sub in
theorem claim_C5_witness :
    DataCleaner.clean ((DataCleaner.clean ⟨[⟨"a", Dtype.obj, [Cell.str "x"]⟩]⟩).1) =
      ((DataCleaner.clean ⟨[⟨"a", Dtype.obj, [Cell.str "x"]⟩]⟩).1, [], []) :=
  claim_C5_theorem ⟨[⟨"a", Dtype.obj, [Cell.str "x"]⟩]⟩
    (by unfold Df.Wf; decide) (by decide) (by decide)

end ERP
